import Mathlib

/-!
Verification development for the GC-log normalization and anomaly-oracle
pipeline of the TestFrameWork repository.

The Python sources are shallowly embedded as executable Lean definitions:

* `RunEnv/src/GCLogParser/base_parser.py`  — `BaseGCParser` (shared accumulator,
  `update_gc_stats`, `extract_heap_size`, `get_result`, `reset`);
* `RunEnv/src/GCLogParser/zgc_parser.py` and `shenandoah_parser.py` — the two
  pauseless-concurrent parsers with their cycle buffering and finalization pass;
* `RunEnv/src/GCLogParser/serial_parser.py`, `parallel_parser.py`,
  `g1_parser.py`, `epsilon_parser.py` — the remaining collector families,
  embedded at the level of classified log-line events;
* `RunEnv/src/GCLogAnalyzer.py` — the (stubbed) `parse_gc_log` dispatcher;
* `RunEnv/src/ResAnalyzer.py` — the oracle engine;
* `RunEnv/src/Test_oracles/stw_anomaly.py` — the STW anomaly oracle.

Numeric conventions: Python floats are modelled as rationals (`ℚ`); all numbers
appearing in the repository's logs and thresholds are small decimal literals,
so exact rational arithmetic agrees with the comparisons made by the code.
Python ints are modelled as `Nat` where the source only ever produces
non-negative values (regex digit captures), and as `Int` where JSON input is
involved. Python dicts (which preserve insertion order) are modelled as
association lists with insertion-order-preserving updates.
-/

namespace TFW

/-! ## Python string primitives used by the sources -/

/-- Python `\s` / `str.strip` whitespace test (over the ASCII log alphabet). -/
def isWs (c : Char) : Bool := c.isWhitespace

/-- Python `str.strip()`: drop whitespace from both ends. -/
def pyStrip (s : String) : String :=
  ⟨((s.data.dropWhile isWs).reverse.dropWhile isWs).reverse⟩

/-- Python `str.upper()` (ASCII). -/
def pyUpper (s : String) : String := ⟨s.data.map Char.toUpper⟩

/-- Python `str.lower()` (ASCII). -/
def pyLower (s : String) : String := ⟨s.data.map Char.toLower⟩

/-- Python `needle in haystack` substring test. -/
def containsSub (needle haystack : String) : Bool :=
  go needle.data haystack.data
where
  go (n : List Char) : List Char → Bool
    | [] => n.isEmpty
    | l@(_ :: rest) => n.isPrefixOf l || go n rest

/-- Numeric value of a digit string (regex `\d+` capture). -/
def natOfDigits (l : List Char) : Nat :=
  l.foldl (fun n c => 10 * n + (c.toNat - 48)) 0

/-- Python `float(s)` on a regex `[\d.]+` / `\d+(\.\d+)?` capture, as an exact
rational. On a capture with more than one dot Python would raise `ValueError`
(per the design's "malformed numeric captures are not specially guarded"
accepted risk); this total model reads the leading `digits.digits` part. -/
def parseRat (l : List Char) : ℚ :=
  let ip := l.takeWhile Char.isDigit
  match l.drop ip.length with
  | '.' :: rest =>
    let fp := rest.takeWhile Char.isDigit
    (natOfDigits ip : ℚ) + (natOfDigits fp : ℚ) / ((10 : ℚ) ^ fp.length)
  | _ => (natOfDigits ip : ℚ)

/-- A non-negative decimal numeral `ip.fp` (a regex `\d+(?:\.\d+)?` capture):
integer part `ip`, fractional digits with value `fp` and length `plen`.
Its value is `ip + fp / 10 ^ plen`. Keeping the decimal parts lets
`int(float * k)` and `int(float / k)` be computed by exact natural
division (see `DecNum.intMul_eq_floor` and `DecNum.intDivK_eq_floor`). -/
structure DecNum where
  ip : Nat
  fp : Nat
  plen : Nat
deriving Repr, DecidableEq

/-- The rational value of a decimal capture (what Python's `float()` denotes,
exactly: all captures in the repository's logs are short decimals). -/
def DecNum.toRat (d : DecNum) : ℚ := (d.ip : ℚ) + (d.fp : ℚ) / ((10 : ℚ) ^ d.plen)

/-- Python `int(value * k)` for a non-negative decimal `value` (truncation
towards zero = floor here), computed by exact natural division. -/
def DecNum.intMul (d : DecNum) (k : Nat) : Nat :=
  (d.ip * 10 ^ d.plen + d.fp) * k / 10 ^ d.plen

/-- Python `int(value / k)` for a non-negative decimal `value`, computed by
exact natural division. -/
def DecNum.intDivK (d : DecNum) (k : Nat) : Nat :=
  (d.ip * 10 ^ d.plen + d.fp) / (k * 10 ^ d.plen)

/-- Leftmost-match regex search: try the position matcher `f` at every start
position, left to right, as `re.search` does. -/
def searchPos (f : List Char → Option α) : List Char → Option α
  | [] => f []
  | l@(_ :: rest) =>
    match f l with
    | some a => some a
    | none => searchPos f rest

/-- Match a literal at the head of the input, returning the remainder. -/
def dropLit : List Char → List Char → Option (List Char)
  | [], l => some l
  | _ :: _, [] => none
  | c :: cs, d :: ds => if c = d then dropLit cs ds else none

/-- Regex `\s+`: at least one whitespace character (greedy; every use site in
the sources is followed by a non-whitespace literal or class, so maximal munch
is exact). -/
def wsP (l : List Char) : Option (List Char) :=
  let ws := l.takeWhile isWs
  if ws.isEmpty then none else some (l.drop ws.length)

/-- Regex `(\d+)`: at least one digit, greedy, returning value and remainder
(every use site is followed by a non-digit, so maximal munch is exact). -/
def digitsP (l : List Char) : Option (Nat × List Char) :=
  let ds := l.takeWhile Char.isDigit
  if ds.isEmpty then none else some (natOfDigits ds, l.drop ds.length)

/-! ## `BaseGCParser` (GCLogParser/base_parser.py)

The five accumulator fields set up in `BaseGCParser.__init__` (and zeroed by
`reset`). `gc_type_breakdown` is a Python dict from sub-type label to
`{count, stw_time_ms}`; it is modelled as an insertion-ordered association
list. -/

structure BdEntry where
  count : Nat
  stw_time_ms : ℚ
deriving Repr, DecidableEq

structure CoreState where
  gc_count : Nat
  total_stw_time : ℚ
  max_stw_time : ℚ
  max_heap_usage : Nat
  gc_type_breakdown : List (String × BdEntry)
deriving Repr, DecidableEq

def initCore : CoreState := ⟨0, 0, 0, 0, []⟩

/-- Python-dict update on an insertion-ordered association list: modify the
entry for `k` if present (keeping its position), otherwise append a fresh
entry `f a₀` at the end — the net effect of `if k not in d: d[k] = a₀`
followed by an update of `d[k]`. -/
def upsert (k : String) (a₀ : α) (f : α → α) : List (String × α) → List (String × α)
  | [] => [(k, f a₀)]
  | (k', v) :: rest =>
    if k' = k then (k', f v) :: rest else (k', v) :: upsert k a₀ f rest

/-- First-match association-list lookup (Python `d[k]` / `k in d`). -/
def alookup (k : String) : List (String × α) → Option α
  | [] => none
  | (k', v) :: rest => if k' = k then some v else alookup k rest

/-- `BaseGCParser.update_gc_stats(gc_subtype, stw_time, heap_before, heap_after)`. -/
def update_gc_stats (s : CoreState) (gc_subtype : String) (stw_time : ℚ)
    (heap_before heap_after : Nat) : CoreState :=
  { gc_count := s.gc_count + 1
    total_stw_time := s.total_stw_time + stw_time
    max_stw_time := max s.max_stw_time stw_time
    max_heap_usage := max s.max_heap_usage (max heap_before heap_after)
    gc_type_breakdown :=
      upsert gc_subtype ⟨0, 0⟩
        (fun e => ⟨e.count + 1, e.stw_time_ms + stw_time⟩) s.gc_type_breakdown }

/-- The normalized metrics record returned by `get_result`. -/
structure NormalizedMetrics where
  total_gc_count : Nat
  gc_stw_time_ms : ℚ
  max_stw_time_ms : ℚ
  max_heap_mb : Nat
  gc_type_breakdown : List (String × BdEntry)
deriving Repr, DecidableEq

/-- `BaseGCParser.get_result()`. -/
def base_get_result (s : CoreState) : NormalizedMetrics :=
  ⟨s.gc_count, s.total_stw_time, s.max_stw_time, s.max_heap_usage,
    s.gc_type_breakdown⟩

/-! ## `BaseGCParser.extract_heap_size` (base_parser.py lines 32-67)

The method strips and upper-cases the input, then tries the patterns
`(\d+(?:\.\d+)?)\s*GB`, `…G`, `…MB`, `…M`, `…KB`, `…K`, `(\d+)` in order with
`re.search`; the unit recovered from `group(0).replace(group(1),'')` is always
exactly the pattern's trailing literal (the number capture contains every digit
of the matched span), so each pattern maps to a fixed conversion. -/

/-- Match `\s*<unit>` and return the numeric value on success. -/
def tailUnit (unit : List Char) (r : List Char) (v : DecNum) : Option DecNum :=
  match dropLit unit (r.dropWhile isWs) with
  | some _ => some v
  | none => none

/-- Try `(\d+(?:\.\d+)?)\s*<unit>` at one start position. The optional
fraction group is greedy, with the regex backtracking to the fraction-less
alternative when the tail fails. -/
def numUnitAt (unit : List Char) (l : List Char) : Option DecNum :=
  let ds := l.takeWhile Char.isDigit
  if ds.isEmpty then none
  else
    let ip := natOfDigits ds
    let r1 := l.drop ds.length
    match r1 with
    | '.' :: fr =>
      let fds := fr.takeWhile Char.isDigit
      if fds.isEmpty then
        tailUnit unit r1 ⟨ip, 0, 0⟩
      else
        match tailUnit unit (fr.drop fds.length) ⟨ip, natOfDigits fds, fds.length⟩ with
        | some v => some v
        | none => tailUnit unit r1 ⟨ip, 0, 0⟩
    | _ => tailUnit unit r1 ⟨ip, 0, 0⟩

/-- `re.search` of `(\d+(?:\.\d+)?)\s*<unit>`. -/
def searchNumUnit (unit : String) (s : String) : Option DecNum :=
  searchPos (numUnitAt unit.data) s.data

/-- `re.search` of the bare-number pattern `(\d+)`. -/
def searchBareNum (s : String) : Option Nat :=
  searchPos (fun l => (digitsP l).map (·.1)) s.data

/-- `BaseGCParser.extract_heap_size(heap_info)`. -/
def extract_heap_size (heap_info : String) : Nat :=
  if heap_info = "" then 0
  else
    let heap_str := pyUpper (pyStrip heap_info)
    match searchNumUnit "GB" heap_str with
    | some v => v.intMul 1024
    | none =>
      match searchNumUnit "G" heap_str with
      | some v => v.intMul 1024
      | none =>
        match searchNumUnit "MB" heap_str with
        | some v => v.intMul 1
        | none =>
          match searchNumUnit "M" heap_str with
          | some v => v.intMul 1
          | none =>
            match searchNumUnit "KB" heap_str with
            | some v => max 1 (v.intDivK 1024)
            | none =>
              match searchNumUnit "K" heap_str with
              | some v => max 1 (v.intDivK 1024)
              | none =>
                match searchBareNum heap_str with
                | some n => n
                | none => 0

/-! ## The shared STW-pause pattern of the two pauseless-concurrent parsers

`zgc_parser.py` line 35 and `shenandoah_parser.py` line 40 use the same
`re.search` pattern `GC\((\d+)\)\s+Pause\s+(.+?)\s+([\d.]+)ms$`.
The lazy group `(.+?)` is expanded shortest-first after the greedy `\s+`
before it (longest-first), exactly as the backtracking engine does; the split
between the second `\s+` and `([\d.]+)` is unique because whitespace and
`[\d.]` are disjoint, and `$` is the end of the (already stripped) line. -/

def isDigitDot (c : Char) : Bool := c.isDigit || c = '.'

/-- Regex `.` character class (anything but a newline). -/
def isDotChar (c : Char) : Bool := c != '\n'

/-- Match `\s+([\d.]+)ms$` exactly against `r`, returning the `[\d.]+` capture. -/
def tailNumMs (r : List Char) : Option (List Char) :=
  match wsP r with
  | none => none
  | some r1 =>
    let num := r1.takeWhile isDigitDot
    if num.isEmpty then none
    else if r1.drop num.length = ['m', 's'] then some num else none

/-- Match `\s+(.+?)\s+([\d.]+)ms$` against `r`: the first `\s+` is tried
longest-first (greedy), the lazy group shortest-first. Returns the `(.+?)`
and `([\d.]+)` captures. -/
def pauseTail (r : List Char) : Option (List Char × List Char) :=
  let wsMax := (r.takeWhile isWs).length
  ((List.range wsMax).map (fun i => wsMax - i)).findSome? (fun k =>
    ((List.range (r.length - k)).map (fun i => i + 1)).findSome? (fun m =>
      let g2 := (r.drop k).take m
      if g2.all isDotChar then
        match tailNumMs (r.drop (k + m)) with
        | some num => some (g2, num)
        | none => none
      else none))

/-- Try the full pause pattern at one start position; returns the three
captures (cycle id digits, pause type, duration digits) as strings. -/
def matchPauseAt (l : List Char) : Option (String × String × String) :=
  match dropLit "GC(".data l with
  | none => none
  | some r1 =>
    let ds := r1.takeWhile Char.isDigit
    if ds.isEmpty then none
    else
      match r1.drop ds.length with
      | ')' :: r2 =>
        match wsP r2 with
        | none => none
        | some r3 =>
          match dropLit "Pause".data r3 with
          | none => none
          | some r4 => (pauseTail r4).map (fun p => (⟨ds⟩, ⟨p.1⟩, ⟨p.2⟩))
      | _ => none

/-- `re.search` of `GC\((\d+)\)\s+Pause\s+(.+?)\s+([\d.]+)ms$`. -/
def pauseSearch (s : String) : Option (String × String × String) :=
  searchPos matchPauseAt s.data

/-- `re.search` of `Max Capacity:\s*(\d+)M` (zgc/shenandoah/epsilon sources). -/
def maxCapAt (l : List Char) : Option Nat :=
  match dropLit "Max Capacity:".data l with
  | none => none
  | some r =>
    match digitsP (r.dropWhile isWs) with
    | none => none
    | some (v, r2) =>
      match r2 with
      | 'M' :: _ => some v
      | _ => none

def maxCapSearch (s : String) : Option Nat := searchPos maxCapAt s.data

/-- One token of a linear regex: a literal, `\s+`, or a `(\d+)` capture.
Patterns whose tokens alternate a greedy class with a literal starting in a
character outside that class (as all the heap-summary regexes below do) are
matched exactly by maximal munch, with no backtracking. -/
inductive Tok where
  | lit (s : String)
  | ws
  | num
deriving Repr, DecidableEq

def tokStep : Tok → List Char → Option (Option Nat × List Char)
  | .lit s, l => (dropLit s.data l).map (fun r => (none, r))
  | .ws, l => (wsP l).map (fun r => (none, r))
  | .num, l => (digitsP l).map (fun p => (some p.1, p.2))

/-- Match a linear token sequence at the head of `l`, collecting the `(\d+)`
captures in order. -/
def seqMatch : List Tok → List Char → Option (List Nat)
  | [], _ => some []
  | t :: ts, l =>
    match tokStep t l with
    | none => none
    | some (cap, r) =>
      match seqMatch ts r with
      | none => none
      | some caps =>
        some (match cap with
          | some n => n :: caps
          | none => caps)

/-- One position of `ZHeap\s+used\s+(\d+)M,\s+capacity\s+(\d+)M,\s+max\s+capacity\s+(\d+)M`
(zgc_parser.py line 74). -/
def zheapAt (l : List Char) : Option (Nat × Nat × Nat) :=
  match seqMatch [.lit "ZHeap", .ws, .lit "used", .ws, .num, .lit "M,", .ws,
      .lit "capacity", .ws, .num, .lit "M,", .ws, .lit "max", .ws,
      .lit "capacity", .ws, .num, .lit "M"] l with
  | some [u, c, m] => some (u, c, m)
  | _ => none

/-- One position of
`(\d+)M\s+max,\s+(\d+)M\s+soft\s+max,\s+(\d+)M\s+committed,\s+(\d+)M\s+used`
(shenandoah_parser.py line 81). -/
def shenHeapAt (l : List Char) : Option (Nat × Nat × Nat × Nat) :=
  match seqMatch [.num, .lit "M", .ws, .lit "max,", .ws, .num, .lit "M", .ws,
      .lit "soft", .ws, .lit "max,", .ws, .num, .lit "M", .ws,
      .lit "committed,", .ws, .num, .lit "M", .ws, .lit "used"] l with
  | some [a, b, c, d] => some (a, b, c, d)
  | _ => none

/-- One position of `(\d+)M\s+used,\s+(\d+)M\s+committed`
(shenandoah_parser.py line 96). -/
def shenExitAt (l : List Char) : Option (Nat × Nat) :=
  match seqMatch [.num, .lit "M", .ws, .lit "used,", .ws, .num, .lit "M", .ws,
      .lit "committed"] l with
  | some [u, c] => some (u, c)
  | _ => none

/-! ## `ZGCParser` (zgc_parser.py) and `ShenandoahGCParser` (shenandoah_parser.py)

Both parsers buffer sub-phase pauses per cycle id in `gc_cycles` (a dict from
cycle id to `{pause_times: dict label → summed time, total_time}`) and rebuild
the base accumulator in `_finalize_gc_stats` when `get_result` is called.
`get_result` is modelled as a pure function: the source's finalization mutates
exactly the base fields, all of which `reset` re-zeroes, so no observable
state survives it. -/

structure CycleInfo where
  pause_times : List (String × ℚ)
  total_time : ℚ
deriving Repr, DecidableEq

/-- The cycle-buffer update shared verbatim by `ZGCParser.parse_log_line`
(lines 53-66) and `ShenandoahGCParser.parse_log_line` (lines 60-73). -/
def recordPause (cycles : List (String × CycleInfo)) (gc_id gc_subtype : String)
    (t : ℚ) : List (String × CycleInfo) :=
  upsert gc_id ⟨[], 0⟩
    (fun ci => ⟨upsert gc_subtype 0 (· + t) ci.pause_times, ci.total_time + t⟩)
    cycles

/-- All per-(cycle, sub-phase-label) aggregated pause durations, in cycle
iteration order — the `all_single_pauses` list built by `_finalize_gc_stats`. -/
def allSinglePauses (cycles : List (String × CycleInfo)) : List ℚ :=
  cycles.flatMap (fun c => c.2.pause_times.map (·.2))

/-- Python `max(lst) if lst else 0.0`. -/
def listMaxQ : List ℚ → ℚ
  | [] => 0
  | x :: xs => xs.foldl max x

/-- The `gc_type_breakdown` rebuilt by `_finalize_gc_stats` from the per-cycle
`pause_times` dicts (`type_stats` in the source): per label, the number of
cycles in which it occurred and its total time. -/
def buildBreakdown (cycles : List (String × CycleInfo)) : List (String × BdEntry) :=
  (cycles.flatMap (fun c => c.2.pause_times)).foldl
    (fun acc p => upsert p.1 ⟨0, 0⟩ (fun e => ⟨e.count + 1, e.stw_time_ms + p.2⟩) acc) []

/-- `_finalize_gc_stats` — identical in `zgc_parser.py` (lines 104-148) and
`shenandoah_parser.py` (lines 123-167). It first folds the per-cycle totals
into `max_stw_time` (zgc line 125) but then unconditionally overwrites that
with `max(all_single_pauses) if all_single_pauses else 0.0` (zgc line 141),
so the final `max_stw_time` is the maximum over per-(cycle, sub-phase)
aggregates, not over per-cycle totals. -/
def finalize_gc_stats (core : CoreState) (cycles : List (String × CycleInfo)) :
    CoreState :=
  { gc_count := cycles.length
    total_stw_time := cycles.foldl (fun a c => a + c.2.total_time) 0
    max_stw_time := listMaxQ (allSinglePauses cycles)
    max_heap_usage := core.max_heap_usage
    gc_type_breakdown := buildBreakdown cycles }

structure ZGCState where
  core : CoreState
  max_heap_capacity : Nat
  gc_cycles : List (String × CycleInfo)
deriving Repr, DecidableEq

/-- The outcome of one `ZGCParser.parse_log_line` line classification: which
guard/pattern of the method fires, together with its numeric captures. -/
inductive ZGCEvent where
  | maxCapacityLine (v : Option Nat)
  | pauseLine (gc_id : String) (gc_subtype : String) (pause_time : ℚ)
  | zheapLine (used : Nat) (capacity : Nat) (max_capacity : Nat)
  | other
deriving Repr, DecidableEq

/-- The sub-type classification in `ZGCParser.parse_log_line` (lines 44-51). -/
def zgc_subtype (pause_type : String) : String :=
  if containsSub "Mark Start" pause_type then "Pause Mark Start"
  else if containsSub "Mark End" pause_type then "Pause Mark End"
  else if containsSub "Relocate Start" pause_type then "Pause Relocate Start"
  else pyStrip pause_type

/-- Line classification of `ZGCParser.parse_log_line`, following the source's
guard order: strip; `"Max Capacity:" in line`; the pause pattern; the
`"ZHeap" in line and "used" in line` guard with its heap regex. -/
def zgc_classify (line : String) : ZGCEvent :=
  let l := pyStrip line
  if containsSub "Max Capacity:" l then .maxCapacityLine (maxCapSearch l)
  else
    match pauseSearch l with
    | some (gcId, ptype, num) => .pauseLine gcId (zgc_subtype ptype) (parseRat num.data)
    | none =>
      if containsSub "ZHeap" l && containsSub "used" l then
        match searchPos zheapAt l.data with
        | some (u, c, m) => .zheapLine u c m
        | none => .other
      else .other

/-- State update of `ZGCParser.parse_log_line` for one classified line. -/
def zgc_parse_log_line (e : ZGCEvent) (s : ZGCState) : ZGCState :=
  match e with
  | .maxCapacityLine (some v) => { s with max_heap_capacity := v }
  | .maxCapacityLine none => s
  | .pauseLine gcId sub t => { s with gc_cycles := recordPause s.gc_cycles gcId sub t }
  | .zheapLine used _capacity maxCap =>
    { s with
      core := { s.core with max_heap_usage := max s.core.max_heap_usage used }
      max_heap_capacity := max s.max_heap_capacity maxCap }
  | .other => s

def zgc_init : ZGCState := ⟨initCore, 0, []⟩

/-- `ZGCParser.reset`: `super().reset()` plus `gc_cycles.clear()`; the
subclass field `max_heap_capacity` is not cleared. -/
def zgc_reset (s : ZGCState) : ZGCState := ⟨initCore, s.max_heap_capacity, []⟩

def zgc_run (evs : List ZGCEvent) (s : ZGCState) : ZGCState :=
  evs.foldl (fun s e => zgc_parse_log_line e s) s

/-- `ZGCParser.get_result` (lines 87-102): finalize, then prefer the observed
`used` maximum for `max_heap_mb`, falling back to the startup capacity. -/
def zgc_get_result (s : ZGCState) : NormalizedMetrics :=
  let core := finalize_gc_stats s.core s.gc_cycles
  let r := base_get_result core
  if core.max_heap_usage = 0 ∧ 0 < s.max_heap_capacity then
    { r with max_heap_mb := s.max_heap_capacity }
  else if 0 < core.max_heap_usage then { r with max_heap_mb := core.max_heap_usage }
  else r

structure ShenState where
  core : CoreState
  max_heap_capacity : Nat
  gc_cycles : List (String × CycleInfo)
deriving Repr, DecidableEq

/-- The outcome of one `ShenandoahGCParser.parse_log_line` classification. -/
inductive ShenEvent where
  | maxCapacityLine (v : Option Nat)
  | pauseLine (gc_id : String) (gc_subtype : String) (stw_time : ℚ)
  | heapLine (max_capacity soft_max committed used : Nat)
  | exitHeapLine (v : Option (Nat × Nat))
  | other
deriving Repr, DecidableEq

/-- The sub-type classification in `ShenandoahGCParser.parse_log_line`
(lines 49-58). -/
def shen_subtype (pause_type : String) : String :=
  if containsSub "Init Mark" pause_type then "Init Mark (unload classes)"
  else if containsSub "Final Mark" pause_type then "Final Mark (unload classes)"
  else if containsSub "Final Roots" pause_type then "Final Roots"
  else if containsSub "Concurrent" pause_type then "Concurrent GC"
  else pyStrip pause_type

/-- Line classification of `ShenandoahGCParser.parse_log_line`, in source
order: strip; `"Max Capacity:"` guard; pause pattern; the unguarded
four-field heap regex; the `"Heap"/"used"/"committed"` exit guard. -/
def shen_classify (line : String) : ShenEvent :=
  let l := pyStrip line
  if containsSub "Max Capacity:" l then .maxCapacityLine (maxCapSearch l)
  else
    match pauseSearch l with
    | some (gcId, ptype, num) => .pauseLine gcId (shen_subtype ptype) (parseRat num.data)
    | none =>
      match searchPos shenHeapAt l.data with
      | some (m, sm, c, u) => .heapLine m sm c u
      | none =>
        if containsSub "Heap" l && containsSub "used" l && containsSub "committed" l then
          .exitHeapLine (searchPos shenExitAt l.data)
        else .other

/-- State update of `ShenandoahGCParser.parse_log_line` for one classified
line. On a matched `Max Capacity:` line the source assigns the capacity and
then folds the freshly assigned value into `max_heap_usage` (lines 28-29). -/
def shen_parse_log_line (e : ShenEvent) (s : ShenState) : ShenState :=
  match e with
  | .maxCapacityLine (some v) =>
    { s with
      max_heap_capacity := v
      core := { s.core with max_heap_usage := max s.core.max_heap_usage v } }
  | .maxCapacityLine none => s
  | .pauseLine gcId sub t => { s with gc_cycles := recordPause s.gc_cycles gcId sub t }
  | .heapLine m sm c u =>
    { s with
      core := { s.core with max_heap_usage := max s.core.max_heap_usage (max u c) }
      max_heap_capacity := max s.max_heap_capacity (max m sm) }
  | .exitHeapLine (some (u, c)) =>
    { s with core := { s.core with max_heap_usage := max s.core.max_heap_usage (max u c) } }
  | .exitHeapLine none => s
  | .other => s

def shen_init : ShenState := ⟨initCore, 0, []⟩

/-- `ShenandoahGCParser.reset` — like the ZGC one, keeps `max_heap_capacity`. -/
def shen_reset (s : ShenState) : ShenState := ⟨initCore, s.max_heap_capacity, []⟩

def shen_run (evs : List ShenEvent) (s : ShenState) : ShenState :=
  evs.foldl (fun s e => shen_parse_log_line e s) s

/-- `ShenandoahGCParser.get_result` (lines 105-121). -/
def shen_get_result (s : ShenState) : NormalizedMetrics :=
  let core := finalize_gc_stats s.core s.gc_cycles
  let r := base_get_result core
  if core.max_heap_usage = 0 ∧ 0 < s.max_heap_capacity then
    { r with max_heap_mb := s.max_heap_capacity }
  else if 0 < core.max_heap_usage then { r with max_heap_mb := core.max_heap_usage }
  else r

/-! ## The remaining collector families, at the level of classified events

`SerialGCParser`, `ParallelGCParser`, `G1GCParser` and `EpsilonGCParser` are
embedded at the granularity of the line classification their
`parse_log_line` performs: an event datatype records which guard/pattern of
the method fired together with its regex captures, and the state update for
each event is translated from the corresponding branch. Any concrete line
classifier is a pure function `String → Event` (in the source, a cascade of
`re.search` calls), so properties proved for every event sequence hold for
every sequence of log lines. -/

/-! ### `SerialGCParser` (serial_parser.py) -/

structure SerialState where
  core : CoreState
  max_heap_capacity : Nat
deriving Repr, DecidableEq

/-- Outcome of one `SerialGCParser.parse_log_line` classification:
the `Heap Max Capacity:` guard (capture already scaled: `G` matches are
multiplied by 1024, lines 24-31), the full GC pattern
`GC\((\d+)\)\s+(.+?)\s+(\d+)M->(\d+)M\((\d+)M\)\s+([\d.]+)ms` with the
sub-type already classified (lines 46-52), the capacity-less pattern
`GC\((\d+)\)\s+(.+?)\s+([\d.]+)ms`, the heap-usage pattern (used KB capture),
or no match. -/
inductive SerialEvent where
  | heapMaxCapacityLine (v : Option Nat)
  | gcFull (gc_subtype : String) (heap_before heap_after heap_capacity : Nat)
      (stw_time : ℚ)
  | gcSimple (gc_subtype : String) (stw_time : ℚ)
  | heapUsageLine (used_kb : Nat)
  | other
deriving Repr, DecidableEq

def serial_parse_log_line (e : SerialEvent) (s : SerialState) : SerialState :=
  match e with
  | .heapMaxCapacityLine (some v) => { s with max_heap_capacity := v }
  | .heapMaxCapacityLine none => s
  | .gcFull sub hb ha cap t =>
    let core := update_gc_stats s.core sub t hb ha
    { s with core := { core with max_heap_usage := max core.max_heap_usage cap } }
  | .gcSimple sub t => { s with core := update_gc_stats s.core sub t 0 0 }
  | .heapUsageLine kb =>
    { s with core := { s.core with
        max_heap_usage := max s.core.max_heap_usage (kb / 1024) } }
  | .other => s

def serial_init : SerialState := ⟨initCore, 0⟩

/-- `SerialGCParser` does not override `reset`: the base reset zeroes the
accumulator, leaving `max_heap_capacity` untouched. -/
def serial_reset (s : SerialState) : SerialState := ⟨initCore, s.max_heap_capacity⟩

def serial_run (evs : List SerialEvent) (s : SerialState) : SerialState :=
  evs.foldl (fun s e => serial_parse_log_line e s) s

/-- `SerialGCParser.get_result` (lines 93-101). -/
def serial_get_result (s : SerialState) : NormalizedMetrics :=
  let r := base_get_result s.core
  if s.core.max_heap_usage = 0 ∧ 0 < s.max_heap_capacity then
    { r with max_heap_mb := s.max_heap_capacity }
  else r

/-! ### `ParallelGCParser` (parallel_parser.py) -/

structure ParallelState where
  core : CoreState
  max_heap_capacity : Nat
deriving Repr, DecidableEq

/-- Outcome of one `ParallelGCParser.parse_log_line` classification: the
`Heap Max Capacity:` guard, the `GC\((\d+)\)\s+Pause\s+…` full pattern with
the sub-type classified (lines 48-56), the `PSYoungGen`/`ParOldGen`
generation patterns (KB captures), the `total …K, used …K` exit guard, or no
match. -/
inductive ParallelEvent where
  | heapMaxCapacityLine (v : Option Nat)
  | gcFull (gc_subtype : String) (heap_before heap_after heap_capacity : Nat)
      (stw_time : ℚ)
  | youngGenLine (capacity_before_kb : Nat)
  | oldGenLine (capacity_before_kb : Nat)
  | exitHeapLine (total_kb used_kb : Nat)
  | other
deriving Repr, DecidableEq

def parallel_parse_log_line (e : ParallelEvent) (s : ParallelState) : ParallelState :=
  match e with
  | .heapMaxCapacityLine (some v) => { s with max_heap_capacity := v }
  | .heapMaxCapacityLine none => s
  | .gcFull sub hb ha cap t =>
    let core := update_gc_stats s.core sub t hb ha
    { s with core := { core with max_heap_usage := max core.max_heap_usage cap } }
  | .youngGenLine capKb =>
    { s with core := { s.core with
        max_heap_usage := max s.core.max_heap_usage (capKb / 1024) } }
  | .oldGenLine capKb =>
    { s with core := { s.core with
        max_heap_usage := max s.core.max_heap_usage (capKb / 1024) } }
  | .exitHeapLine totKb usedKb =>
    { s with core := { s.core with
        max_heap_usage := max s.core.max_heap_usage (max (totKb / 1024) (usedKb / 1024)) } }
  | .other => s

def parallel_init : ParallelState := ⟨initCore, 0⟩

def parallel_reset (s : ParallelState) : ParallelState := ⟨initCore, s.max_heap_capacity⟩

def parallel_run (evs : List ParallelEvent) (s : ParallelState) : ParallelState :=
  evs.foldl (fun s e => parallel_parse_log_line e s) s

/-- `ParallelGCParser.get_result` (lines 99-107). -/
def parallel_get_result (s : ParallelState) : NormalizedMetrics :=
  let r := base_get_result s.core
  if s.core.max_heap_usage = 0 ∧ 0 < s.max_heap_capacity then
    { r with max_heap_mb := s.max_heap_capacity }
  else r

/-! ### `G1GCParser` (g1_parser.py) -/

structure G1State where
  core : CoreState
  max_heap_capacity : Nat
deriving Repr, DecidableEq

/-- Outcome of one `G1GCParser.parse_log_line` classification: the
`Heap address:` guard with its `size:\s*(\d+)\s*MB` capture; the GC pattern
ending in `…M->…M\(…M\)\s+([\d.]+)ms$` (the heap triple is re-searched over
the whole line, lines 43-48, and can in principle fail to be the same match,
hence the `Option`); the `Eden regions:` guard; the
`garbage-first heap`/`total`/`used` exit guard; or no match. -/
inductive G1Event where
  | heapAddressLine (v : Option Nat)
  | gcLine (gc_subtype : String) (heap : Option (Nat × Nat × Nat)) (stw_time : ℚ)
  | edenLine (v : Option (Nat × Nat))
  | exitHeapLine (v : Option (Nat × Nat))
  | other
deriving Repr, DecidableEq

def g1_parse_log_line (e : G1Event) (s : G1State) : G1State :=
  match e with
  | .heapAddressLine (some v) => { s with max_heap_capacity := v }
  | .heapAddressLine none => s
  | .gcLine sub heap t =>
    match heap with
    | some (hb, ha, cap) =>
      let core := { s.core with
        max_heap_usage := max s.core.max_heap_usage (max hb (max ha cap)) }
      { s with core := update_gc_stats core sub t hb ha }
    | none => { s with core := update_gc_stats s.core sub t 0 0 }
  | .edenLine (some (edenBefore, _maxRegions)) =>
    { s with core := { s.core with
        max_heap_usage := max s.core.max_heap_usage (edenBefore * 1) } }
  | .edenLine none => s
  | .exitHeapLine (some (_totalKb, usedKb)) =>
    { s with core := { s.core with
        max_heap_usage := max s.core.max_heap_usage (usedKb / 1024) } }
  | .exitHeapLine none => s
  | .other => s

def g1_init : G1State := ⟨initCore, 0⟩

def g1_reset (s : G1State) : G1State := ⟨initCore, s.max_heap_capacity⟩

def g1_run (evs : List G1Event) (s : G1State) : G1State :=
  evs.foldl (fun s e => g1_parse_log_line e s) s

/-- `G1GCParser.get_result` (lines 97-109): capacity fallback, otherwise the
observed usage (explicitly re-assigned in the `else` branch). -/
def g1_get_result (s : G1State) : NormalizedMetrics :=
  let r := base_get_result s.core
  if s.core.max_heap_usage = 0 ∧ 0 < s.max_heap_capacity then
    { r with max_heap_mb := s.max_heap_capacity }
  else { r with max_heap_mb := s.core.max_heap_usage }

/-! ### `EpsilonGCParser` (epsilon_parser.py) -/

structure EpsilonState where
  core : CoreState
  max_heap_capacity : Nat
  committed_heap_size : Nat
deriving Repr, DecidableEq

/-- Outcome of one `EpsilonGCParser.parse_log_line` classification, one
constructor per guard of the method, each carrying its optional regex
captures. The two `Heap Max Capacity:` patterns (G then M, lines 70-83) are
merged into one constructor with the capture already scaled to MB. -/
inductive EpsilonEvent where
  | resizeableLine (startV maxV : Option Nat)
  | heapAddressLine (v : Option Nat)
  | heapCommittedLine (committed reserved : Option Nat)
  | maxCapacityLine (v : Option Nat)
  | heapMaxCapacityLine (v : Nat)
  | pauseLine (pause_type : String) (stw_time : ℚ)
  | heapUsedLine (maxCap : Option Nat)
  | exitHeapLine (v : Option (Nat × Nat))
  | other
deriving Repr, DecidableEq

def epsilon_parse_log_line (e : EpsilonEvent) (s : EpsilonState) : EpsilonState :=
  match e with
  | .resizeableLine startV maxV =>
    let s :=
      match maxV with
      | some mv =>
        { s with
          max_heap_capacity := mv
          core := { s.core with max_heap_usage := max s.core.max_heap_usage mv } }
      | none => s
    match startV with
    | some sv =>
      { s with core := { s.core with max_heap_usage := max s.core.max_heap_usage sv } }
    | none => s
  | .heapAddressLine (some v) =>
    { s with
      max_heap_capacity := v
      core := { s.core with max_heap_usage := max s.core.max_heap_usage v } }
  | .heapAddressLine none => s
  | .heapCommittedLine committed reserved =>
    let s :=
      match committed with
      | some cm =>
        { s with
          committed_heap_size := cm
          core := { s.core with max_heap_usage := max s.core.max_heap_usage cm }
          max_heap_capacity := max s.max_heap_capacity cm }
      | none => s
    match reserved with
    | some rv => { s with max_heap_capacity := max s.max_heap_capacity rv }
    | none => s
  | .maxCapacityLine (some v) =>
    { s with
      max_heap_capacity := v
      core := { s.core with max_heap_usage := max s.core.max_heap_usage v } }
  | .maxCapacityLine none => s
  | .heapMaxCapacityLine v =>
    { s with
      max_heap_capacity := v
      core := { s.core with max_heap_usage := max s.core.max_heap_usage v } }
  | .pauseLine ptype t =>
    if 1 / 10 < t then
      { s with core := update_gc_stats s.core ("Non-GC Pause (" ++ ptype ++ ")") t 0 0 }
    else s
  | .heapUsedLine (some m) =>
    { s with
      core := { s.core with max_heap_usage := max s.core.max_heap_usage m }
      max_heap_capacity := max s.max_heap_capacity m }
  | .heapUsedLine none => s
  | .exitHeapLine (some (totKb, usedKb)) =>
    { s with
      core := { s.core with
        max_heap_usage := max s.core.max_heap_usage (max (totKb / 1024) (usedKb / 1024)) }
      max_heap_capacity := max s.max_heap_capacity (totKb / 1024) }
  | .exitHeapLine none => s
  | .other => s

def epsilon_init : EpsilonState := ⟨initCore, 0, 0⟩

def epsilon_reset (s : EpsilonState) : EpsilonState :=
  ⟨initCore, s.max_heap_capacity, s.committed_heap_size⟩

def epsilon_run (evs : List EpsilonEvent) (s : EpsilonState) : EpsilonState :=
  evs.foldl (fun s e => epsilon_parse_log_line e s) s

/-- `EpsilonGCParser.get_result` (lines 124-145): zero-GC normalization when
no pause was counted, then the committed > usage > capacity heap priority. -/
def epsilon_get_result (s : EpsilonState) : NormalizedMetrics :=
  let r := base_get_result s.core
  let r :=
    if s.core.gc_count = 0 then
      { r with
        total_gc_count := 0
        gc_stw_time_ms := 0
        max_stw_time_ms := 0
        gc_type_breakdown := [("EpsilonGC", ⟨0, 0⟩)] }
    else r
  if 0 < s.committed_heap_size then { r with max_heap_mb := s.committed_heap_size }
  else if 0 < s.core.max_heap_usage then { r with max_heap_mb := s.core.max_heap_usage }
  else if 0 < s.max_heap_capacity then { r with max_heap_mb := s.max_heap_capacity }
  else r

/-! ## `GCLogAnalyzer.parse_gc_log` (GCLogAnalyzer.py lines 47-126)

The method is an explicitly marked placeholder ("TODO: implement the full GC
log parsing logic; currently returns hard-coded fixed values to validate the
pipeline"): it never opens the file, only inspects the lower-cased basename
for a collector-family token and returns a fixed record per family — with a
hard-coded *default* record for filenames carrying no known token. The
returned dicts carry no `max_stw_time_ms` key, hence the dedicated record
type. -/

structure GcLogStubResult where
  total_gc_count : Nat
  gc_stw_time_ms : ℚ
  max_heap_mb : Nat
  gc_type_breakdown : List (String × BdEntry)
deriving Repr, DecidableEq

/-- The final path component: everything after the last `'/'`. -/
def baseNameAux : List Char → List Char → List Char
  | [], acc => acc.reverse
  | '/' :: rest, _ => baseNameAux rest []
  | c :: rest, acc => baseNameAux rest (c :: acc)

/-- `Path(p).name` (POSIX): the final path component. -/
def baseName (p : String) : String := ⟨baseNameAux p.data []⟩

def parse_gc_log (gc_log_file : String) : GcLogStubResult :=
  let gc_log_filename := pyLower (baseName gc_log_file)
  if containsSub "serialgc" gc_log_filename then
    ⟨3, 452 / 10, 256, [("SerialGC", ⟨3, 452 / 10⟩)]⟩
  else if containsSub "parallelgc" gc_log_filename then
    ⟨2, 287 / 10, 512, [("ParallelGC", ⟨2, 287 / 10⟩)]⟩
  else if containsSub "g1gc" gc_log_filename then
    ⟨5, 678 / 10, 1024, [("G1GC", ⟨5, 678 / 10⟩)]⟩
  else if containsSub "zgc" gc_log_filename then
    ⟨1, 123 / 10, 2048, [("ZGC", ⟨1, 123 / 10⟩)]⟩
  else if containsSub "shenandoahgc" gc_log_filename then
    ⟨4, 389 / 10, 1536, [("ShenandoahGC", ⟨4, 389 / 10⟩)]⟩
  else if containsSub "epsilongc" gc_log_filename then
    ⟨0, 0, 128, [("EpsilonGC", ⟨0, 0⟩)]⟩
  else
    ⟨1, 15, 256, [("UnknownGC", ⟨1, 15⟩)]⟩

/-! ## The STW anomaly oracle (Test_oracles/stw_anomaly.py)

JSON run records are modelled structurally, with `Option` for keys read via
`dict.get`. The human-readable `description`/`message` f-strings of the
anomaly dicts are pure presentation and are not modelled; every semantic
field is. -/

structure GcAnalysisRec where
  total_gc_count : Option Int
  max_stw_time_ms : Option ℚ
deriving Repr, DecidableEq

structure RunRes where
  jdk_version : Option String
  GC_parameters : Option (List String)
  gc_analysis : Option GcAnalysisRec
  test_timestamp : Option String
deriving Repr, DecidableEq

structure LogData where
  test_results : Option (List RunRes)
deriving Repr, DecidableEq

/-- `classify_gc_type` (stw_anomaly.py lines 35-51): join the GC parameters
with spaces, upper-case, and look for the enabling flag substrings. -/
def classify_gc_type (result : RunRes) : String :=
  let params_str := pyUpper (String.intercalate " " (result.GC_parameters.getD []))
  if containsSub "+USEZGC" params_str then "ZGC"
  else if containsSub "+USESHENANDOAHGC" params_str then "ShenandoahGC"
  else if containsSub "+USEG1GC" params_str then "G1GC"
  else if containsSub "+USEPARALLELGC" params_str || containsSub "+USEPARALLELOLDGC" params_str then
    "ParallelGC"
  else if containsSub "+USESERIALGC" params_str then "SerialGC"
  else "Unknown"

/-- `STW_THRESHOLDS` (lines 25-32), with the dict's `.get(gc_type, Unknown)`
default folded in. -/
def STW_THRESHOLDS (gc_type : String) : ℚ :=
  if gc_type = "ZGC" then 2
  else if gc_type = "ShenandoahGC" then 100
  else if gc_type = "G1GC" then 100
  else if gc_type = "ParallelGC" then 300
  else if gc_type = "SerialGC" then 500
  else 300

structure GcDataEntry where
  jdk_version : String
  gc_type : String
  max_stw_time_ms : ℚ
  total_gc_count : Int
  gc_parameters : List String
  test_timestamp : String
deriving Repr, DecidableEq

/-- The `gc_data` collection loop (lines 54-78): skip runs without
`gc_analysis`, with a missing `total_gc_count`, with `total_gc_count < 10`,
or with a missing `max_stw_time_ms`. -/
def collectGcData (test_results : List RunRes) : List GcDataEntry :=
  test_results.filterMap (fun result =>
    match result.gc_analysis with
    | none => none
    | some ga =>
      match ga.total_gc_count with
      | none => none
      | some gc_count =>
        if gc_count < 10 then none
        else
          match ga.max_stw_time_ms with
          | none => none
          | some max_stw_time =>
            some ⟨result.jdk_version.getD "unknown", classify_gc_type result,
              max_stw_time, gc_count, result.GC_parameters.getD [],
              result.test_timestamp.getD "unknown"⟩)

structure ThresholdViolation where
  jdk_version : String
  gc_type : String
  gc_parameters : List String
  max_stw_time_ms : ℚ
  threshold_ms : ℚ
  excess_ms : ℚ
  total_gc_count : Int
  test_timestamp : String
deriving Repr, DecidableEq

structure JdkG1SerialComparison where
  jdk_version : String
  g1gc_stw_ms : ℚ
  serialgc_stw_ms : ℚ
  excess_ms : ℚ
deriving Repr, DecidableEq

structure JdkLowLatencyComparison where
  jdk_version : String
  low_latency_gc_type : String
  low_latency_gc_stw_ms : ℚ
  other_gc_type : String
  other_gc_stw_ms : ℚ
  excess_ms : ℚ
deriving Repr, DecidableEq

structure CrossVersionRegression where
  gc_type : String
  prev_jdk_version : String
  curr_jdk_version : String
  prev_stw_ms : ℚ
  curr_stw_ms : ℚ
  increase_ms : ℚ
  increase_ratio : ℚ
deriving Repr, DecidableEq

/-- One anomaly dict in the oracle's `anomalies` list. Only `threshold`
entries carry a `threshold_ms` key; the two comparison shapes carry
`anomaly_type = "jdk_internal_gc_comparison"` and cross-version entries
`anomaly_type = "cross_version_gc_regression"`. -/
inductive StwEntry where
  | threshold (a : ThresholdViolation)
  | g1SerialComparison (a : JdkG1SerialComparison)
  | lowLatencyComparison (a : JdkLowLatencyComparison)
  | crossVersion (a : CrossVersionRegression)
deriving Repr, DecidableEq

/-- `"threshold_ms" in a` (line 249). -/
def StwEntry.hasThresholdKey : StwEntry → Bool
  | .threshold _ => true
  | _ => false

/-- `a.get("anomaly_type") == "jdk_internal_gc_comparison"` (line 250). -/
def StwEntry.isJdkComparison : StwEntry → Bool
  | .g1SerialComparison _ => true
  | .lowLatencyComparison _ => true
  | _ => false

/-- `a.get("anomaly_type") == "cross_version_gc_regression"` (line 251). -/
def StwEntry.isCrossVersion : StwEntry → Bool
  | .crossVersion _ => true
  | _ => false

/-- Section 1, absolute threshold monitoring (lines 86-101):
`data["max_stw_time_ms"] > threshold` (strict). -/
def thresholdViolations (gc_data : List GcDataEntry) : List ThresholdViolation :=
  gc_data.filterMap (fun d =>
    let threshold := STW_THRESHOLDS d.gc_type
    if threshold < d.max_stw_time_ms then
      some ⟨d.jdk_version, d.gc_type, d.gc_parameters, d.max_stw_time_ms,
        threshold, d.max_stw_time_ms - threshold, d.total_gc_count,
        d.test_timestamp⟩
    else none)

/-- Python-dict grouping (first-occurrence key order, appending within a
group), as built by the `jdk_groups` / `gc_type_groups` loops. -/
def groupByKey (key : α → String) (l : List α) : List (String × List α) :=
  l.foldl (fun acc a => upsert (key a) [] (fun xs => xs ++ [a]) acc) []

/-- Section 2, same-JDK cross-collector comparison (lines 106-171). The
`gc_stw_map` dict assignment is last-wins per gc type. -/
def jdkComparisonAnomalies (gc_data : List GcDataEntry) : List StwEntry :=
  (groupByKey (·.jdk_version) gc_data).flatMap (fun g =>
    let jdk_gc_data := g.2
    let gc_stw_map := jdk_gc_data.foldl
      (fun m d => upsert d.gc_type d.max_stw_time_ms (fun _ => d.max_stw_time_ms) m) []
    let partA : List StwEntry :=
      match alookup "G1GC" gc_stw_map, alookup "SerialGC" gc_stw_map with
      | some g1v, some sv =>
        if 1 < sv ∧ sv * 20 < g1v then [.g1SerialComparison ⟨g.1, g1v, sv, g1v - sv⟩]
        else []
      | _, _ => []
    let low_latency_gcs := jdk_gc_data.filter
      (fun d => d.gc_type == "ZGC" || d.gc_type == "ShenandoahGC")
    let other_gcs := jdk_gc_data.filter
      (fun d => !(d.gc_type == "ZGC" || d.gc_type == "ShenandoahGC"))
    let partB : List StwEntry := low_latency_gcs.flatMap (fun low =>
      other_gcs.filterMap (fun other =>
        if low.gc_type == "ShenandoahGC" then
          if 1 / 10 < other.max_stw_time_ms ∧
              other.max_stw_time_ms * 20 < low.max_stw_time_ms then
            some (.lowLatencyComparison ⟨g.1, low.gc_type, low.max_stw_time_ms,
              other.gc_type, other.max_stw_time_ms,
              low.max_stw_time_ms - other.max_stw_time_ms⟩)
          else none
        else
          if 1 / 10 < other.max_stw_time_ms ∧
              other.max_stw_time_ms < low.max_stw_time_ms then
            some (.lowLatencyComparison ⟨g.1, low.gc_type, low.max_stw_time_ms,
              other.gc_type, other.max_stw_time_ms,
              low.max_stw_time_ms - other.max_stw_time_ms⟩)
          else none))
    partA ++ partB)

/-- The sort key of line 184: `float(v)` when `v.replace('.','').isdigit()`
else 0. (On a multi-dot version string Python's `float` itself would raise;
see `parseRat`.) -/
def versionKey (s : String) : ℚ :=
  let digitsOnly := s.data.filter (fun c => c != '.')
  if !digitsOnly.isEmpty && digitsOnly.all Char.isDigit then parseRat s.data else 0

/-- Stable ascending insertion (a later element is placed after all elements
with a key `≤` its own), modelling Python's stable `sorted`. -/
def insertByKey (key : α → ℚ) (a : α) : List α → List α
  | [] => [a]
  | b :: bs => if key a < key b then a :: b :: bs else b :: insertByKey key a bs

def sortByKey (key : α → ℚ) (l : List α) : List α :=
  l.foldl (fun acc a => insertByKey key a acc) []

/-- Section 3, cross-JDK-version regression (lines 174-244): per gc type,
sort by version, inspect adjacent pairs; pairs with `prev_stw < 0.001` are
skipped (which also makes the source's `float('inf')` ratio fallback
unreachable). -/
def crossVersionAnomalies (gc_data : List GcDataEntry) : List StwEntry :=
  (groupByKey (·.gc_type) gc_data).flatMap (fun g =>
    let sorted_data := sortByKey (fun d => versionKey d.jdk_version) g.2
    (sorted_data.zip sorted_data.tail).filterMap (fun p =>
      let prev_stw := p.1.max_stw_time_ms
      let curr_stw := p.2.max_stw_time_ms
      if prev_stw < 1 / 1000 then none
      else
        let stw_increase := curr_stw - prev_stw
        let stw_increase_ratio := stw_increase / prev_stw
        let entry : StwEntry := .crossVersion ⟨g.1, p.1.jdk_version,
          p.2.jdk_version, prev_stw, curr_stw, stw_increase, stw_increase_ratio⟩
        if g.1 == "ShenandoahGC" then
          if 5 < stw_increase ∧ 20 < stw_increase_ratio then some entry else none
        else if g.1 == "ZGC" then
          if 1 / 10 < stw_increase ∧ 5 < stw_increase_ratio then some entry else none
        else
          if 50 < stw_increase ∧ 20 < stw_increase_ratio then some entry else none))

/-- The record returned by `oracle_stw_anomaly` when anomalies were found
(lines 253-264); the `message` f-string is presentation only and not
modelled. -/
structure StwOracleReport where
  type : String
  file_path : String
  anomalies : List StwEntry
  total_anomalies : Nat
  threshold_violations : Nat
  jdk_internal_comparisons : Nat
  cross_version_regressions : Nat
deriving Repr, DecidableEq

/-- `oracle_stw_anomaly(log_data, file_path)` (stw_anomaly.py). -/
def oracle_stw_anomaly (log_data : LogData) (file_path : String) :
    Option StwOracleReport :=
  match log_data.test_results with
  | none => none
  | some test_results =>
    if test_results.isEmpty then none
    else
      let gc_data := collectGcData test_results
      if gc_data.isEmpty then none
      else
        let anomalies := (thresholdViolations gc_data).map StwEntry.threshold
          ++ jdkComparisonAnomalies gc_data ++ crossVersionAnomalies gc_data
        if anomalies.isEmpty then none
        else
          some ⟨"stw_anomaly", file_path, anomalies, anomalies.length,
            (anomalies.filter StwEntry.hasThresholdKey).length,
            (anomalies.filter StwEntry.isJdkComparison).length,
            (anomalies.filter StwEntry.isCrossVersion).length⟩

/-! ## The oracle engine (ResAnalyzer.py lines 36-48)

An oracle is a named function from the parsed log data and the file path to
either `some anomaly`, `none`, or a raised exception — modelled by `Except`.
The engine walks the registry in order, appending each oracle's anomaly when
one is returned and converting a raised exception into an
`oracle_execution_error` record naming the oracle (`oracle.__name__`). -/

structure Oracle (α : Type) where
  name : String
  fn : LogData → String → Except String (Option α)

inductive EngineRecord (α : Type) where
  | emitted (a : α)
  | execError (file_path oracle_name error : String)
deriving Repr, DecidableEq

/-- `ResAnalyzer.analyze_json_file`, restricted to its per-oracle loop (the
surrounding JSON-load `try` is file I/O). -/
def analyze_json_file (registry : List (Oracle α)) (log_data : LogData)
    (file_path : String) : List (EngineRecord α) :=
  registry.flatMap (fun oracle =>
    match oracle.fn log_data file_path with
    | .ok (some anomaly) => [.emitted anomaly]
    | .ok none => []
    | .error e => [.execError file_path oracle.name e])

/-! ## Auxiliary notions used by the theorems below -/

/-- The effect one classified line has on a retained (`reset`-surviving)
`Nat` field such as `max_heap_capacity` or `committed_heap_size`: a plain
assignment, a `max`-update, or no change. Every such field in every parser
evolves only through these three shapes. -/
inductive CapOp where
  | assign (v : Nat)
  | amax (v : Nat)
  | skip
deriving Repr, DecidableEq

def capApply : CapOp → Nat → Nat
  | .assign v, _ => v
  | .amax v, c => max c v
  | .skip, c => c

def capRun (ops : List CapOp) (c : Nat) : Nat :=
  ops.foldl (fun c o => capApply o c) c

/-- Effect of a `SerialGCParser` event on `max_heap_capacity`. -/
def SerialEvent.capOp : SerialEvent → CapOp
  | .heapMaxCapacityLine (some v) => .assign v
  | _ => .skip

/-- Effect of a `ParallelGCParser` event on `max_heap_capacity`. -/
def ParallelEvent.capOp : ParallelEvent → CapOp
  | .heapMaxCapacityLine (some v) => .assign v
  | _ => .skip

/-- Effect of a `G1GCParser` event on `max_heap_capacity`. -/
def G1Event.capOp : G1Event → CapOp
  | .heapAddressLine (some v) => .assign v
  | _ => .skip

/-- Effect of a `ZGCParser` event on `max_heap_capacity`. -/
def ZGCEvent.capOp : ZGCEvent → CapOp
  | .maxCapacityLine (some v) => .assign v
  | .zheapLine _ _ m => .amax m
  | _ => .skip

/-- Effect of a `ShenandoahGCParser` event on `max_heap_capacity`. -/
def ShenEvent.capOp : ShenEvent → CapOp
  | .maxCapacityLine (some v) => .assign v
  | .heapLine m sm _ _ => .amax (max m sm)
  | _ => .skip

/-- Effect of an `EpsilonGCParser` event on `max_heap_capacity`. -/
def EpsilonEvent.capOp : EpsilonEvent → CapOp
  | .resizeableLine _ (some mv) => .assign mv
  | .heapAddressLine (some v) => .assign v
  | .heapCommittedLine (some cm) (some rv) => .amax (max cm rv)
  | .heapCommittedLine (some cm) none => .amax cm
  | .heapCommittedLine none (some rv) => .amax rv
  | .maxCapacityLine (some v) => .assign v
  | .heapMaxCapacityLine v => .assign v
  | .heapUsedLine (some m) => .amax m
  | .exitHeapLine (some p) => .amax (p.1 / 1024)
  | _ => .skip

/-- Effect of an `EpsilonGCParser` event on `committed_heap_size`. -/
def EpsilonEvent.committedOp : EpsilonEvent → CapOp
  | .heapCommittedLine (some cm) _ => .assign cm
  | _ => .skip

/-- Non-negative pause durations: what the `([\d.]+)` regex captures of the
concrete classifiers always deliver (see `parseRat_nonneg` and the
`*_classify_wf` lemmas). -/
def ZGCEvent.wf : ZGCEvent → Prop
  | .pauseLine _ _ t => 0 ≤ t
  | _ => True

def ShenEvent.wf : ShenEvent → Prop
  | .pauseLine _ _ t => 0 ≤ t
  | _ => True

def SerialEvent.wf : SerialEvent → Prop
  | .gcFull _ _ _ _ t => 0 ≤ t
  | .gcSimple _ t => 0 ≤ t
  | _ => True

def ParallelEvent.wf : ParallelEvent → Prop
  | .gcFull _ _ _ _ t => 0 ≤ t
  | _ => True

def G1Event.wf : G1Event → Prop
  | .gcLine _ _ t => 0 ≤ t
  | _ => True

def EpsilonEvent.wf : EpsilonEvent → Prop
  | .pauseLine _ t => 0 ≤ t
  | _ => True

/-- Well-formedness of the cycle buffer: every buffered per-sub-phase
aggregate is non-negative and every cycle's `total_time` is the sum of its
per-sub-phase aggregates. -/
def CyclesOk (cycles : List (String × CycleInfo)) : Prop :=
  ∀ c ∈ cycles, (∀ p ∈ c.2.pause_times, 0 ≤ p.2) ∧
    c.2.total_time = (c.2.pause_times.map (·.2)).sum

/-- The accumulator invariant behind claim C4. -/
def CoreOk (s : CoreState) : Prop :=
  0 ≤ s.total_stw_time ∧ s.max_stw_time ≤ s.total_stw_time

/-- The breakdown count recorded for a sub-type label (0 when absent). -/
def bdCount (k : String) (s : CoreState) : Nat :=
  ((alookup k s.gc_type_breakdown).map (·.count)).getD 0

/-- Modelled from the spec: "`max_stw_time_ms` is the maximum over per-cycle
totals" — the quantity §4.2 claims the finalization pass produces
(compare with what `finalize_gc_stats` actually computes). -/
def perCycleTotalMax (cycles : List (String × CycleInfo)) : ℚ :=
  listMaxQ (cycles.map (·.2.total_time))

/-- All per-(cycle, sub-phase) aggregated durations, recomputed directly from
the cycle buffer (the quantity `max_stw_time_ms` actually maximizes). -/
def allSubPhaseTotals (cycles : List (String × CycleInfo)) : List ℚ :=
  (cycles.flatMap (·.2.pause_times)).map (·.2)

end TFW

namespace TFW

/-! # Helper lemmas -/

/-! ## Retained-field (`CapOp`) algebra -/

lemma capRun_nil (c : Nat) : capRun [] c = c := rfl

lemma capRun_cons (o : CapOp) (ops : List CapOp) (c : Nat) :
    capRun (o :: ops) c = capRun ops (capApply o c) := rfl

/-- A `CapOp` fold is either constant in its starting value (some assignment
eventually overrides it) or acts as `max` with its from-zero value. -/
lemma capRun_const_or_max (ops : List CapOp) :
    (∀ a b, capRun ops a = capRun ops b) ∨
      (∀ a, capRun ops a = max a (capRun ops 0)) := by
  induction ops with
  | nil => right; intro a; simp [capRun]
  | cons o ops ih =>
    rcases ih with h | h
    · left
      intro a b
      rw [capRun_cons, capRun_cons]
      exact h _ _
    · cases o with
      | assign v =>
        left
        intro a b
        rw [capRun_cons, capRun_cons]
        simp only [capApply]
      | amax v =>
        right
        intro a
        rw [capRun_cons, capRun_cons]
        simp only [capApply]
        rw [h (max a v), h (max 0 v)]
        omega
      | skip =>
        right
        intro a
        rw [capRun_cons, capRun_cons]
        simp only [capApply]
        rw [h a]

/-- Feeding a `CapOp` fold its own from-zero result is a fixed point: the
algebraic heart of the reset/re-feed round trip. -/
lemma capRun_idem (ops : List CapOp) : capRun ops (capRun ops 0) = capRun ops 0 := by
  rcases capRun_const_or_max ops with h | h
  · exact h _ _
  · rw [h (capRun ops 0)]
    omega

/-! ## Association-list (Python dict) lemmas -/

lemma alookup_upsert_self (k : String) (a₀ : α) (f : α → α) (l : List (String × α)) :
    alookup k (upsert k a₀ f l) = some (f ((alookup k l).getD a₀)) := by
  induction l with
  | nil => simp [upsert, alookup]
  | cons p rest ih =>
    obtain ⟨k', v⟩ := p
    by_cases h : k' = k
    · subst h
      simp [upsert, alookup]
    · simp [upsert, alookup, h, ih]

lemma upsert_sum_q (k : String) (t : ℚ) (l : List (String × ℚ)) :
    ((upsert k 0 (· + t) l).map (·.2)).sum = (l.map (·.2)).sum + t := by
  induction l with
  | nil => simp [upsert]
  | cons p rest ih =>
    obtain ⟨k', v⟩ := p
    by_cases h : k' = k
    · subst h
      simp [upsert]
      ring
    · simp [upsert, h, ih]
      ring

lemma upsert_forall {P : String × α → Prop} {k : String} {a₀ : α} {f : α → α} :
    ∀ {l : List (String × α)}, (∀ p ∈ l, P p) → P (k, f a₀) →
      (∀ v, P (k, v) → P (k, f v)) → ∀ p ∈ upsert k a₀ f l, P p := by
  intro l
  induction l with
  | nil =>
    intro _ h0 _ p hp
    simp [upsert] at hp
    subst hp
    exact h0
  | cons q rest ih =>
    intro hl h0 hf p hp
    obtain ⟨k', v⟩ := q
    by_cases h : k' = k
    · subst h
      simp [upsert] at hp
      rcases hp with hp | hp
      · subst hp
        exact hf v (hl _ (List.mem_cons_self ..))
      · exact hl _ (List.mem_cons_of_mem _ hp)
    · simp [upsert, h] at hp
      rcases hp with hp | hp
      · subst hp
        exact hl _ (List.mem_cons_self ..)
      · exact ih (fun q hq => hl q (List.mem_cons_of_mem _ hq)) h0 hf p hp

/-! ## `listMaxQ` and sum lemmas -/

lemma foldl_max_le {B : ℚ} :
    ∀ (l : List ℚ) (a : ℚ), a ≤ B → (∀ x ∈ l, x ≤ B) → l.foldl max a ≤ B := by
  intro l
  induction l with
  | nil => intro a ha _; exact ha
  | cons x xs ih =>
    intro a ha h
    exact ih (max a x) (max_le ha (h x (List.mem_cons_self ..)))
      (fun y hy => h y (List.mem_cons_of_mem _ hy))

lemma listMaxQ_le {l : List ℚ} {B : ℚ} (hB : 0 ≤ B) (h : ∀ x ∈ l, x ≤ B) :
    listMaxQ l ≤ B := by
  cases l with
  | nil => exact hB
  | cons x xs =>
    exact foldl_max_le xs x (h x (List.mem_cons_self ..))
      (fun y hy => h y (List.mem_cons_of_mem _ hy))

lemma foldl_add_eq (l : List α) (g : α → ℚ) :
    ∀ a : ℚ, l.foldl (fun acc x => acc + g x) a = a + (l.map g).sum := by
  induction l with
  | nil => intro a; simp
  | cons x xs ih =>
    intro a
    simp [ih]
    ring

lemma parseRat_nonneg (l : List Char) : 0 ≤ parseRat l := by
  simp only [parseRat]
  split <;> positivity

/-! ## Base-accumulator lemmas -/

lemma coreOk_init : CoreOk initCore := ⟨le_refl 0, le_refl 0⟩

lemma coreOk_update {s : CoreState} {sub : String} {t : ℚ} {hb ha : Nat}
    (h : CoreOk s) (ht : 0 ≤ t) : CoreOk (update_gc_stats s sub t hb ha) := by
  refine ⟨add_nonneg h.1 ht, ?_⟩
  exact max_le (h.2.trans (le_add_of_nonneg_right ht)) (le_add_of_nonneg_left h.1)

/-! ## Character lemmas for the heap-unit normalizer -/

lemma isDigit_eq_decide (c : Char) :
    c.isDigit = decide (48 ≤ c.toNat ∧ c.toNat ≤ 57) := by
  simp only [Char.isDigit, ge_iff_le, UInt32.le_def, BitVec.le_def, Char.toNat]
  norm_num [UInt32.toNat]

lemma isDigit_toUpper (c : Char) : c.toUpper.isDigit = c.isDigit := by
  unfold Char.toUpper
  by_cases h : c.toNat ≥ 97 ∧ c.toNat ≤ 122
  · simp only [if_pos h]
    have hv : Nat.isValidChar (c.toNat - 32) := Or.inl (by omega)
    rw [Char.ofNat, dif_pos hv]
    have h1 : (Char.ofNatAux (c.toNat - 32) hv).toNat = c.toNat - 32 := rfl
    rw [isDigit_eq_decide, isDigit_eq_decide, h1]
    have ha : ¬(48 ≤ c.toNat - 32 ∧ c.toNat - 32 ≤ 57) := by omega
    have hb : ¬(48 ≤ c.toNat ∧ c.toNat ≤ 57) := by omega
    simp [ha, hb]
    omega
  · simp only [if_neg h]

end TFW

namespace TFW

/-! ## Round-trip machinery: retained fields and reset (claim C8)

For each parser family: the accumulator (`core`, and for the pauseless
parsers the cycle buffer) of a run does not depend on the retained
`reset`-surviving fields, and each retained field evolves exactly as the
`CapOp` fold of the event list — hence re-running the same events after
`reset` reproduces the first run's final state. -/

lemma serial_run_cons (e : SerialEvent) (evs : List SerialEvent) (s : SerialState) :
    serial_run (e :: evs) s = serial_run evs (serial_parse_log_line e s) := rfl

lemma serial_step_core (e : SerialEvent) (c : CoreState) (k k' : Nat) :
    (serial_parse_log_line e ⟨c, k⟩).core = (serial_parse_log_line e ⟨c, k'⟩).core := by
  cases e with
  | heapMaxCapacityLine v => cases v <;> rfl
  | gcFull sub hb ha cap t => rfl
  | gcSimple sub t => rfl
  | heapUsageLine kb => rfl
  | other => rfl

lemma serial_step_cap (e : SerialEvent) (s : SerialState) :
    (serial_parse_log_line e s).max_heap_capacity =
      capApply e.capOp s.max_heap_capacity := by
  cases e with
  | heapMaxCapacityLine v => cases v <;> rfl
  | gcFull sub hb ha cap t => rfl
  | gcSimple sub t => rfl
  | heapUsageLine kb => rfl
  | other => rfl

lemma serial_run_cap (evs : List SerialEvent) :
    ∀ s : SerialState, (serial_run evs s).max_heap_capacity =
      capRun (evs.map SerialEvent.capOp) s.max_heap_capacity := by
  induction evs with
  | nil => intro s; rfl
  | cons e evs ih =>
    intro s
    rw [serial_run_cons, List.map_cons, capRun_cons, ih, serial_step_cap]

lemma serial_run_core_indep (evs : List SerialEvent) :
    ∀ (c : CoreState) (k k' : Nat),
      (serial_run evs ⟨c, k⟩).core = (serial_run evs ⟨c, k'⟩).core := by
  induction evs with
  | nil => intro c k k'; rfl
  | cons e evs ih =>
    intro c k k'
    rw [serial_run_cons, serial_run_cons]
    show (serial_run evs ⟨(serial_parse_log_line e ⟨c, k⟩).core,
        (serial_parse_log_line e ⟨c, k⟩).max_heap_capacity⟩).core =
      (serial_run evs ⟨(serial_parse_log_line e ⟨c, k'⟩).core,
        (serial_parse_log_line e ⟨c, k'⟩).max_heap_capacity⟩).core
    rw [serial_step_core e c k k']
    exact ih _ _ _

lemma serial_round_trip (evs : List SerialEvent) :
    serial_run evs (serial_reset (serial_run evs serial_init)) =
      serial_run evs serial_init := by
  have h1 : (serial_run evs (serial_reset (serial_run evs serial_init))).core =
      (serial_run evs serial_init).core :=
    serial_run_core_indep evs initCore _ 0
  have h2 : (serial_run evs (serial_reset (serial_run evs serial_init))).max_heap_capacity =
      (serial_run evs serial_init).max_heap_capacity := by
    rw [serial_run_cap evs, serial_run_cap evs]
    show capRun (evs.map SerialEvent.capOp)
        ((serial_run evs serial_init).max_heap_capacity) = _
    rw [serial_run_cap evs]
    exact capRun_idem _
  calc serial_run evs (serial_reset (serial_run evs serial_init))
      = ⟨(serial_run evs (serial_reset (serial_run evs serial_init))).core,
         (serial_run evs (serial_reset (serial_run evs serial_init))).max_heap_capacity⟩ := rfl
    _ = ⟨(serial_run evs serial_init).core,
         (serial_run evs serial_init).max_heap_capacity⟩ := by rw [h1, h2]
    _ = serial_run evs serial_init := rfl

end TFW

namespace TFW

lemma parallel_run_cons (e : ParallelEvent) (evs : List ParallelEvent) (s : ParallelState) :
    parallel_run (e :: evs) s = parallel_run evs (parallel_parse_log_line e s) := rfl

lemma parallel_step_core (e : ParallelEvent) (c : CoreState) (k k' : Nat) :
    (parallel_parse_log_line e ⟨c, k⟩).core = (parallel_parse_log_line e ⟨c, k'⟩).core := by
  cases e with
  | heapMaxCapacityLine v => cases v <;> rfl
  | gcFull sub hb ha cap t => rfl
  | youngGenLine a => rfl
  | oldGenLine a => rfl
  | exitHeapLine a b => rfl
  | other => rfl

lemma parallel_step_cap (e : ParallelEvent) (s : ParallelState) :
    (parallel_parse_log_line e s).max_heap_capacity =
      capApply e.capOp s.max_heap_capacity := by
  cases e with
  | heapMaxCapacityLine v => cases v <;> rfl
  | gcFull sub hb ha cap t => rfl
  | youngGenLine a => rfl
  | oldGenLine a => rfl
  | exitHeapLine a b => rfl
  | other => rfl

lemma parallel_run_cap (evs : List ParallelEvent) :
    ∀ s : ParallelState, (parallel_run evs s).max_heap_capacity =
      capRun (evs.map ParallelEvent.capOp) s.max_heap_capacity := by
  induction evs with
  | nil => intro s; rfl
  | cons e evs ih =>
    intro s
    rw [parallel_run_cons, List.map_cons, capRun_cons, ih, parallel_step_cap]

lemma parallel_run_core_indep (evs : List ParallelEvent) :
    ∀ (c : CoreState) (k k' : Nat),
      (parallel_run evs ⟨c, k⟩).core = (parallel_run evs ⟨c, k'⟩).core := by
  induction evs with
  | nil => intro c k k'; rfl
  | cons e evs ih =>
    intro c k k'
    rw [parallel_run_cons, parallel_run_cons]
    show (parallel_run evs ⟨(parallel_parse_log_line e ⟨c, k⟩).core,
        (parallel_parse_log_line e ⟨c, k⟩).max_heap_capacity⟩).core =
      (parallel_run evs ⟨(parallel_parse_log_line e ⟨c, k'⟩).core,
        (parallel_parse_log_line e ⟨c, k'⟩).max_heap_capacity⟩).core
    rw [parallel_step_core e c k k']
    exact ih _ _ _

lemma parallel_round_trip (evs : List ParallelEvent) :
    parallel_run evs (parallel_reset (parallel_run evs parallel_init)) =
      parallel_run evs parallel_init := by
  have h1 : (parallel_run evs (parallel_reset (parallel_run evs parallel_init))).core =
      (parallel_run evs parallel_init).core :=
    parallel_run_core_indep evs initCore _ 0
  have h2 : (parallel_run evs (parallel_reset (parallel_run evs parallel_init))).max_heap_capacity =
      (parallel_run evs parallel_init).max_heap_capacity := by
    rw [parallel_run_cap evs, parallel_run_cap evs]
    show capRun (evs.map ParallelEvent.capOp)
        ((parallel_run evs parallel_init).max_heap_capacity) = _
    rw [parallel_run_cap evs]
    exact capRun_idem _
  calc parallel_run evs (parallel_reset (parallel_run evs parallel_init))
      = ⟨(parallel_run evs (parallel_reset (parallel_run evs parallel_init))).core,
         (parallel_run evs (parallel_reset (parallel_run evs parallel_init))).max_heap_capacity⟩ := rfl
    _ = ⟨(parallel_run evs parallel_init).core,
         (parallel_run evs parallel_init).max_heap_capacity⟩ := by rw [h1, h2]
    _ = parallel_run evs parallel_init := rfl

lemma g1_run_cons (e : G1Event) (evs : List G1Event) (s : G1State) :
    g1_run (e :: evs) s = g1_run evs (g1_parse_log_line e s) := rfl

lemma g1_step_core (e : G1Event) (c : CoreState) (k k' : Nat) :
    (g1_parse_log_line e ⟨c, k⟩).core = (g1_parse_log_line e ⟨c, k'⟩).core := by
  cases e with
  | heapAddressLine v => cases v <;> rfl
  | gcLine sub heap t => cases heap <;> rfl
  | edenLine v => cases v <;> rfl
  | exitHeapLine v => cases v <;> rfl
  | other => rfl

lemma g1_step_cap (e : G1Event) (s : G1State) :
    (g1_parse_log_line e s).max_heap_capacity = capApply e.capOp s.max_heap_capacity := by
  cases e with
  | heapAddressLine v => cases v <;> rfl
  | gcLine sub heap t => cases heap <;> rfl
  | edenLine v => cases v <;> rfl
  | exitHeapLine v => cases v <;> rfl
  | other => rfl

lemma g1_run_cap (evs : List G1Event) :
    ∀ s : G1State, (g1_run evs s).max_heap_capacity =
      capRun (evs.map G1Event.capOp) s.max_heap_capacity := by
  induction evs with
  | nil => intro s; rfl
  | cons e evs ih =>
    intro s
    rw [g1_run_cons, List.map_cons, capRun_cons, ih, g1_step_cap]

lemma g1_run_core_indep (evs : List G1Event) :
    ∀ (c : CoreState) (k k' : Nat),
      (g1_run evs ⟨c, k⟩).core = (g1_run evs ⟨c, k'⟩).core := by
  induction evs with
  | nil => intro c k k'; rfl
  | cons e evs ih =>
    intro c k k'
    rw [g1_run_cons, g1_run_cons]
    show (g1_run evs ⟨(g1_parse_log_line e ⟨c, k⟩).core,
        (g1_parse_log_line e ⟨c, k⟩).max_heap_capacity⟩).core =
      (g1_run evs ⟨(g1_parse_log_line e ⟨c, k'⟩).core,
        (g1_parse_log_line e ⟨c, k'⟩).max_heap_capacity⟩).core
    rw [g1_step_core e c k k']
    exact ih _ _ _

lemma g1_round_trip (evs : List G1Event) :
    g1_run evs (g1_reset (g1_run evs g1_init)) = g1_run evs g1_init := by
  have h1 : (g1_run evs (g1_reset (g1_run evs g1_init))).core =
      (g1_run evs g1_init).core :=
    g1_run_core_indep evs initCore _ 0
  have h2 : (g1_run evs (g1_reset (g1_run evs g1_init))).max_heap_capacity =
      (g1_run evs g1_init).max_heap_capacity := by
    rw [g1_run_cap evs, g1_run_cap evs]
    show capRun (evs.map G1Event.capOp) ((g1_run evs g1_init).max_heap_capacity) = _
    rw [g1_run_cap evs]
    exact capRun_idem _
  calc g1_run evs (g1_reset (g1_run evs g1_init))
      = ⟨(g1_run evs (g1_reset (g1_run evs g1_init))).core,
         (g1_run evs (g1_reset (g1_run evs g1_init))).max_heap_capacity⟩ := rfl
    _ = ⟨(g1_run evs g1_init).core, (g1_run evs g1_init).max_heap_capacity⟩ := by
        rw [h1, h2]
    _ = g1_run evs g1_init := rfl

end TFW

namespace TFW

lemma zgc_run_cons (e : ZGCEvent) (evs : List ZGCEvent) (s : ZGCState) :
    zgc_run (e :: evs) s = zgc_run evs (zgc_parse_log_line e s) := rfl

lemma zgc_step_core (e : ZGCEvent) (c : CoreState) (k k' : Nat)
    (cy : List (String × CycleInfo)) :
    (zgc_parse_log_line e ⟨c, k, cy⟩).core = (zgc_parse_log_line e ⟨c, k', cy⟩).core := by
  cases e with
  | maxCapacityLine v => cases v <;> rfl
  | pauseLine gcId sub t => rfl
  | zheapLine u cp m => rfl
  | other => rfl

lemma zgc_step_cycles (e : ZGCEvent) (c : CoreState) (k k' : Nat)
    (cy : List (String × CycleInfo)) :
    (zgc_parse_log_line e ⟨c, k, cy⟩).gc_cycles =
      (zgc_parse_log_line e ⟨c, k', cy⟩).gc_cycles := by
  cases e with
  | maxCapacityLine v => cases v <;> rfl
  | pauseLine gcId sub t => rfl
  | zheapLine u cp m => rfl
  | other => rfl

lemma zgc_step_cap (e : ZGCEvent) (s : ZGCState) :
    (zgc_parse_log_line e s).max_heap_capacity =
      capApply e.capOp s.max_heap_capacity := by
  cases e with
  | maxCapacityLine v => cases v <;> rfl
  | pauseLine gcId sub t => rfl
  | zheapLine u cp m => rfl
  | other => rfl

lemma zgc_run_cap (evs : List ZGCEvent) :
    ∀ s : ZGCState, (zgc_run evs s).max_heap_capacity =
      capRun (evs.map ZGCEvent.capOp) s.max_heap_capacity := by
  induction evs with
  | nil => intro s; rfl
  | cons e evs ih =>
    intro s
    rw [zgc_run_cons, List.map_cons, capRun_cons, ih, zgc_step_cap]

lemma zgc_run_core_indep (evs : List ZGCEvent) :
    ∀ (c : CoreState) (cy : List (String × CycleInfo)) (k k' : Nat),
      (zgc_run evs ⟨c, k, cy⟩).core = (zgc_run evs ⟨c, k', cy⟩).core := by
  induction evs with
  | nil => intro c cy k k'; rfl
  | cons e evs ih =>
    intro c cy k k'
    rw [zgc_run_cons, zgc_run_cons]
    show (zgc_run evs ⟨(zgc_parse_log_line e ⟨c, k, cy⟩).core,
        (zgc_parse_log_line e ⟨c, k, cy⟩).max_heap_capacity,
        (zgc_parse_log_line e ⟨c, k, cy⟩).gc_cycles⟩).core =
      (zgc_run evs ⟨(zgc_parse_log_line e ⟨c, k', cy⟩).core,
        (zgc_parse_log_line e ⟨c, k', cy⟩).max_heap_capacity,
        (zgc_parse_log_line e ⟨c, k', cy⟩).gc_cycles⟩).core
    rw [zgc_step_core e c k k' cy, zgc_step_cycles e c k k' cy]
    exact ih _ _ _ _

lemma zgc_run_cycles_indep (evs : List ZGCEvent) :
    ∀ (c : CoreState) (cy : List (String × CycleInfo)) (k k' : Nat),
      (zgc_run evs ⟨c, k, cy⟩).gc_cycles = (zgc_run evs ⟨c, k', cy⟩).gc_cycles := by
  induction evs with
  | nil => intro c cy k k'; rfl
  | cons e evs ih =>
    intro c cy k k'
    rw [zgc_run_cons, zgc_run_cons]
    show (zgc_run evs ⟨(zgc_parse_log_line e ⟨c, k, cy⟩).core,
        (zgc_parse_log_line e ⟨c, k, cy⟩).max_heap_capacity,
        (zgc_parse_log_line e ⟨c, k, cy⟩).gc_cycles⟩).gc_cycles =
      (zgc_run evs ⟨(zgc_parse_log_line e ⟨c, k', cy⟩).core,
        (zgc_parse_log_line e ⟨c, k', cy⟩).max_heap_capacity,
        (zgc_parse_log_line e ⟨c, k', cy⟩).gc_cycles⟩).gc_cycles
    rw [zgc_step_core e c k k' cy, zgc_step_cycles e c k k' cy]
    exact ih _ _ _ _

lemma zgc_round_trip (evs : List ZGCEvent) :
    zgc_run evs (zgc_reset (zgc_run evs zgc_init)) = zgc_run evs zgc_init := by
  have h1 : (zgc_run evs (zgc_reset (zgc_run evs zgc_init))).core =
      (zgc_run evs zgc_init).core :=
    zgc_run_core_indep evs initCore [] _ 0
  have h3 : (zgc_run evs (zgc_reset (zgc_run evs zgc_init))).gc_cycles =
      (zgc_run evs zgc_init).gc_cycles :=
    zgc_run_cycles_indep evs initCore [] _ 0
  have h2 : (zgc_run evs (zgc_reset (zgc_run evs zgc_init))).max_heap_capacity =
      (zgc_run evs zgc_init).max_heap_capacity := by
    rw [zgc_run_cap evs, zgc_run_cap evs]
    show capRun (evs.map ZGCEvent.capOp)
        ((zgc_run evs zgc_init).max_heap_capacity) = _
    rw [zgc_run_cap evs]
    exact capRun_idem _
  calc zgc_run evs (zgc_reset (zgc_run evs zgc_init))
      = ⟨(zgc_run evs (zgc_reset (zgc_run evs zgc_init))).core,
         (zgc_run evs (zgc_reset (zgc_run evs zgc_init))).max_heap_capacity,
         (zgc_run evs (zgc_reset (zgc_run evs zgc_init))).gc_cycles⟩ := rfl
    _ = ⟨(zgc_run evs zgc_init).core, (zgc_run evs zgc_init).max_heap_capacity,
         (zgc_run evs zgc_init).gc_cycles⟩ := by rw [h1, h2, h3]
    _ = zgc_run evs zgc_init := rfl

lemma shen_run_cons (e : ShenEvent) (evs : List ShenEvent) (s : ShenState) :
    shen_run (e :: evs) s = shen_run evs (shen_parse_log_line e s) := rfl

lemma shen_step_core (e : ShenEvent) (c : CoreState) (k k' : Nat)
    (cy : List (String × CycleInfo)) :
    (shen_parse_log_line e ⟨c, k, cy⟩).core = (shen_parse_log_line e ⟨c, k', cy⟩).core := by
  cases e with
  | maxCapacityLine v => cases v <;> rfl
  | pauseLine gcId sub t => rfl
  | heapLine m sm cm u => rfl
  | exitHeapLine v => cases v <;> rfl
  | other => rfl

lemma shen_step_cycles (e : ShenEvent) (c : CoreState) (k k' : Nat)
    (cy : List (String × CycleInfo)) :
    (shen_parse_log_line e ⟨c, k, cy⟩).gc_cycles =
      (shen_parse_log_line e ⟨c, k', cy⟩).gc_cycles := by
  cases e with
  | maxCapacityLine v => cases v <;> rfl
  | pauseLine gcId sub t => rfl
  | heapLine m sm cm u => rfl
  | exitHeapLine v => cases v <;> rfl
  | other => rfl

lemma shen_step_cap (e : ShenEvent) (s : ShenState) :
    (shen_parse_log_line e s).max_heap_capacity =
      capApply e.capOp s.max_heap_capacity := by
  cases e with
  | maxCapacityLine v => cases v <;> rfl
  | pauseLine gcId sub t => rfl
  | heapLine m sm cm u => rfl
  | exitHeapLine v => cases v <;> rfl
  | other => rfl

lemma shen_run_cap (evs : List ShenEvent) :
    ∀ s : ShenState, (shen_run evs s).max_heap_capacity =
      capRun (evs.map ShenEvent.capOp) s.max_heap_capacity := by
  induction evs with
  | nil => intro s; rfl
  | cons e evs ih =>
    intro s
    rw [shen_run_cons, List.map_cons, capRun_cons, ih, shen_step_cap]

lemma shen_run_core_indep (evs : List ShenEvent) :
    ∀ (c : CoreState) (cy : List (String × CycleInfo)) (k k' : Nat),
      (shen_run evs ⟨c, k, cy⟩).core = (shen_run evs ⟨c, k', cy⟩).core := by
  induction evs with
  | nil => intro c cy k k'; rfl
  | cons e evs ih =>
    intro c cy k k'
    rw [shen_run_cons, shen_run_cons]
    show (shen_run evs ⟨(shen_parse_log_line e ⟨c, k, cy⟩).core,
        (shen_parse_log_line e ⟨c, k, cy⟩).max_heap_capacity,
        (shen_parse_log_line e ⟨c, k, cy⟩).gc_cycles⟩).core =
      (shen_run evs ⟨(shen_parse_log_line e ⟨c, k', cy⟩).core,
        (shen_parse_log_line e ⟨c, k', cy⟩).max_heap_capacity,
        (shen_parse_log_line e ⟨c, k', cy⟩).gc_cycles⟩).core
    rw [shen_step_core e c k k' cy, shen_step_cycles e c k k' cy]
    exact ih _ _ _ _

lemma shen_run_cycles_indep (evs : List ShenEvent) :
    ∀ (c : CoreState) (cy : List (String × CycleInfo)) (k k' : Nat),
      (shen_run evs ⟨c, k, cy⟩).gc_cycles = (shen_run evs ⟨c, k', cy⟩).gc_cycles := by
  induction evs with
  | nil => intro c cy k k'; rfl
  | cons e evs ih =>
    intro c cy k k'
    rw [shen_run_cons, shen_run_cons]
    show (shen_run evs ⟨(shen_parse_log_line e ⟨c, k, cy⟩).core,
        (shen_parse_log_line e ⟨c, k, cy⟩).max_heap_capacity,
        (shen_parse_log_line e ⟨c, k, cy⟩).gc_cycles⟩).gc_cycles =
      (shen_run evs ⟨(shen_parse_log_line e ⟨c, k', cy⟩).core,
        (shen_parse_log_line e ⟨c, k', cy⟩).max_heap_capacity,
        (shen_parse_log_line e ⟨c, k', cy⟩).gc_cycles⟩).gc_cycles
    rw [shen_step_core e c k k' cy, shen_step_cycles e c k k' cy]
    exact ih _ _ _ _

lemma shen_round_trip (evs : List ShenEvent) :
    shen_run evs (shen_reset (shen_run evs shen_init)) = shen_run evs shen_init := by
  have h1 : (shen_run evs (shen_reset (shen_run evs shen_init))).core =
      (shen_run evs shen_init).core :=
    shen_run_core_indep evs initCore [] _ 0
  have h3 : (shen_run evs (shen_reset (shen_run evs shen_init))).gc_cycles =
      (shen_run evs shen_init).gc_cycles :=
    shen_run_cycles_indep evs initCore [] _ 0
  have h2 : (shen_run evs (shen_reset (shen_run evs shen_init))).max_heap_capacity =
      (shen_run evs shen_init).max_heap_capacity := by
    rw [shen_run_cap evs, shen_run_cap evs]
    show capRun (evs.map ShenEvent.capOp)
        ((shen_run evs shen_init).max_heap_capacity) = _
    rw [shen_run_cap evs]
    exact capRun_idem _
  calc shen_run evs (shen_reset (shen_run evs shen_init))
      = ⟨(shen_run evs (shen_reset (shen_run evs shen_init))).core,
         (shen_run evs (shen_reset (shen_run evs shen_init))).max_heap_capacity,
         (shen_run evs (shen_reset (shen_run evs shen_init))).gc_cycles⟩ := rfl
    _ = ⟨(shen_run evs shen_init).core, (shen_run evs shen_init).max_heap_capacity,
         (shen_run evs shen_init).gc_cycles⟩ := by rw [h1, h2, h3]
    _ = shen_run evs shen_init := rfl

end TFW

namespace TFW

lemma epsilon_run_cons (e : EpsilonEvent) (evs : List EpsilonEvent) (s : EpsilonState) :
    epsilon_run (e :: evs) s = epsilon_run evs (epsilon_parse_log_line e s) := rfl

lemma epsilon_step_core (e : EpsilonEvent) (c : CoreState) (k k' m m' : Nat) :
    (epsilon_parse_log_line e ⟨c, k, m⟩).core =
      (epsilon_parse_log_line e ⟨c, k', m'⟩).core := by
  cases e with
  | resizeableLine sv mv => cases sv <;> cases mv <;> rfl
  | heapAddressLine v => cases v <;> rfl
  | heapCommittedLine cm rv => cases cm <;> cases rv <;> rfl
  | maxCapacityLine v => cases v <;> rfl
  | heapMaxCapacityLine v => rfl
  | pauseLine p t =>
    simp only [epsilon_parse_log_line]
    split <;> rfl
  | heapUsedLine v => cases v <;> rfl
  | exitHeapLine v => cases v <;> rfl
  | other => rfl

lemma epsilon_step_cap (e : EpsilonEvent) (s : EpsilonState) :
    (epsilon_parse_log_line e s).max_heap_capacity =
      capApply e.capOp s.max_heap_capacity := by
  cases e with
  | resizeableLine sv mv => cases sv <;> cases mv <;> rfl
  | heapAddressLine v => cases v <;> rfl
  | heapCommittedLine cm rv =>
    cases cm <;> cases rv <;>
      simp [epsilon_parse_log_line, EpsilonEvent.capOp, capApply, max_assoc]
  | maxCapacityLine v => cases v <;> rfl
  | heapMaxCapacityLine v => rfl
  | pauseLine p t =>
    simp only [epsilon_parse_log_line]
    split <;> rfl
  | heapUsedLine v => cases v <;> rfl
  | exitHeapLine v => cases v <;> rfl
  | other => rfl

lemma epsilon_step_committed (e : EpsilonEvent) (s : EpsilonState) :
    (epsilon_parse_log_line e s).committed_heap_size =
      capApply e.committedOp s.committed_heap_size := by
  cases e with
  | resizeableLine sv mv => cases sv <;> cases mv <;> rfl
  | heapAddressLine v => cases v <;> rfl
  | heapCommittedLine cm rv => cases cm <;> cases rv <;> rfl
  | maxCapacityLine v => cases v <;> rfl
  | heapMaxCapacityLine v => rfl
  | pauseLine p t =>
    simp only [epsilon_parse_log_line]
    split <;> rfl
  | heapUsedLine v => cases v <;> rfl
  | exitHeapLine v => cases v <;> rfl
  | other => rfl

lemma epsilon_run_cap (evs : List EpsilonEvent) :
    ∀ s : EpsilonState, (epsilon_run evs s).max_heap_capacity =
      capRun (evs.map EpsilonEvent.capOp) s.max_heap_capacity := by
  induction evs with
  | nil => intro s; rfl
  | cons e evs ih =>
    intro s
    rw [epsilon_run_cons, List.map_cons, capRun_cons, ih, epsilon_step_cap]

lemma epsilon_run_committed (evs : List EpsilonEvent) :
    ∀ s : EpsilonState, (epsilon_run evs s).committed_heap_size =
      capRun (evs.map EpsilonEvent.committedOp) s.committed_heap_size := by
  induction evs with
  | nil => intro s; rfl
  | cons e evs ih =>
    intro s
    rw [epsilon_run_cons, List.map_cons, capRun_cons, ih, epsilon_step_committed]

lemma epsilon_run_core_indep (evs : List EpsilonEvent) :
    ∀ (c : CoreState) (k k' m m' : Nat),
      (epsilon_run evs ⟨c, k, m⟩).core = (epsilon_run evs ⟨c, k', m'⟩).core := by
  induction evs with
  | nil => intro c k k' m m'; rfl
  | cons e evs ih =>
    intro c k k' m m'
    rw [epsilon_run_cons, epsilon_run_cons]
    show (epsilon_run evs ⟨(epsilon_parse_log_line e ⟨c, k, m⟩).core,
        (epsilon_parse_log_line e ⟨c, k, m⟩).max_heap_capacity,
        (epsilon_parse_log_line e ⟨c, k, m⟩).committed_heap_size⟩).core =
      (epsilon_run evs ⟨(epsilon_parse_log_line e ⟨c, k', m'⟩).core,
        (epsilon_parse_log_line e ⟨c, k', m'⟩).max_heap_capacity,
        (epsilon_parse_log_line e ⟨c, k', m'⟩).committed_heap_size⟩).core
    rw [epsilon_step_core e c k k' m m']
    exact ih _ _ _ _ _

lemma epsilon_round_trip (evs : List EpsilonEvent) :
    epsilon_run evs (epsilon_reset (epsilon_run evs epsilon_init)) =
      epsilon_run evs epsilon_init := by
  have h1 : (epsilon_run evs (epsilon_reset (epsilon_run evs epsilon_init))).core =
      (epsilon_run evs epsilon_init).core :=
    epsilon_run_core_indep evs initCore _ 0 _ 0
  have h2 : (epsilon_run evs (epsilon_reset (epsilon_run evs epsilon_init))).max_heap_capacity =
      (epsilon_run evs epsilon_init).max_heap_capacity := by
    rw [epsilon_run_cap evs, epsilon_run_cap evs]
    show capRun (evs.map EpsilonEvent.capOp)
        ((epsilon_run evs epsilon_init).max_heap_capacity) = _
    rw [epsilon_run_cap evs]
    exact capRun_idem _
  have h3 : (epsilon_run evs (epsilon_reset (epsilon_run evs epsilon_init))).committed_heap_size =
      (epsilon_run evs epsilon_init).committed_heap_size := by
    rw [epsilon_run_committed evs, epsilon_run_committed evs]
    show capRun (evs.map EpsilonEvent.committedOp)
        ((epsilon_run evs epsilon_init).committed_heap_size) = _
    rw [epsilon_run_committed evs]
    exact capRun_idem _
  calc epsilon_run evs (epsilon_reset (epsilon_run evs epsilon_init))
      = ⟨(epsilon_run evs (epsilon_reset (epsilon_run evs epsilon_init))).core,
         (epsilon_run evs (epsilon_reset (epsilon_run evs epsilon_init))).max_heap_capacity,
         (epsilon_run evs (epsilon_reset (epsilon_run evs epsilon_init))).committed_heap_size⟩ := rfl
    _ = ⟨(epsilon_run evs epsilon_init).core,
         (epsilon_run evs epsilon_init).max_heap_capacity,
         (epsilon_run evs epsilon_init).committed_heap_size⟩ := by rw [h1, h2, h3]
    _ = epsilon_run evs epsilon_init := rfl

end TFW

namespace TFW

/-! ## Accumulator invariants (claim C4) -/

lemma cyclesOk_nil : CyclesOk [] := by
  intro c hc
  simp at hc

lemma recordPause_ok {cycles : List (String × CycleInfo)} {gcId sub : String} {t : ℚ}
    (h : CyclesOk cycles) (ht : 0 ≤ t) : CyclesOk (recordPause cycles gcId sub t) := by
  unfold recordPause
  refine upsert_forall h ?_ ?_
  · constructor
    · intro p hp
      simp [upsert] at hp
      subst hp
      simpa using ht
    · simp [upsert]
  · rintro ci ⟨hnn, hsum⟩
    constructor
    · refine upsert_forall hnn ?_ ?_
      · simpa using ht
      · intro v hv
        simpa using add_nonneg hv ht
    · show ci.total_time + t = ((upsert sub 0 (· + t) ci.pause_times).map (·.2)).sum
      rw [upsert_sum_q, hsum]

lemma zgc_run_cyclesOk (evs : List ZGCEvent) :
    ∀ s : ZGCState, (∀ e ∈ evs, e.wf) → CyclesOk s.gc_cycles →
      CyclesOk (zgc_run evs s).gc_cycles := by
  induction evs with
  | nil => intro s _ h; exact h
  | cons e evs ih =>
    intro s hwf h
    rw [zgc_run_cons]
    refine ih _ (fun e' he' => hwf e' (List.mem_cons_of_mem _ he')) ?_
    have hew := hwf e (List.mem_cons_self ..)
    cases e with
    | maxCapacityLine v => cases v <;> exact h
    | pauseLine gcId sub t => exact recordPause_ok h hew
    | zheapLine u cp m => exact h
    | other => exact h

lemma shen_run_cyclesOk (evs : List ShenEvent) :
    ∀ s : ShenState, (∀ e ∈ evs, e.wf) → CyclesOk s.gc_cycles →
      CyclesOk (shen_run evs s).gc_cycles := by
  induction evs with
  | nil => intro s _ h; exact h
  | cons e evs ih =>
    intro s hwf h
    rw [shen_run_cons]
    refine ih _ (fun e' he' => hwf e' (List.mem_cons_of_mem _ he')) ?_
    have hew := hwf e (List.mem_cons_self ..)
    cases e with
    | maxCapacityLine v => cases v <;> exact h
    | pauseLine gcId sub t => exact recordPause_ok h hew
    | heapLine m sm cm u => exact h
    | exitHeapLine v => cases v <;> exact h
    | other => exact h

/-- The finalized total STW time as a plain sum. -/
lemma finalize_total_eq (cycles : List (String × CycleInfo)) :
    cycles.foldl (fun a c => a + c.2.total_time) 0 =
      (cycles.map (·.2.total_time)).sum := by
  rw [foldl_add_eq cycles (·.2.total_time) 0]
  ring

lemma cycle_total_nonneg {cycles : List (String × CycleInfo)} (h : CyclesOk cycles) :
    ∀ c ∈ cycles, 0 ≤ c.2.total_time := by
  intro c hc
  rw [(h c hc).2]
  exact List.sum_nonneg (by
    intro x hx
    obtain ⟨p, hp, rfl⟩ := List.mem_map.mp hx
    exact (h c hc).1 p hp)

lemma finalize_max_le_total {cycles : List (String × CycleInfo)} (h : CyclesOk cycles) :
    listMaxQ (allSinglePauses cycles) ≤ cycles.foldl (fun a c => a + c.2.total_time) 0 := by
  rw [finalize_total_eq]
  have htot : ∀ x ∈ cycles.map (·.2.total_time), 0 ≤ x := by
    intro x hx
    obtain ⟨c, hc, rfl⟩ := List.mem_map.mp hx
    exact cycle_total_nonneg h c hc
  refine listMaxQ_le (List.sum_nonneg htot) ?_
  intro x hx
  obtain ⟨c, hc, hx⟩ := List.mem_flatMap.mp hx
  obtain ⟨p, hp, rfl⟩ := List.mem_map.mp hx
  calc p.2 ≤ (c.2.pause_times.map (·.2)).sum :=
        List.single_le_sum (by
          intro y hy
          obtain ⟨q, hq, rfl⟩ := List.mem_map.mp hy
          exact (h c hc).1 q hq) _ (List.mem_map.mpr ⟨p, hp, rfl⟩)
    _ = c.2.total_time := ((h c hc).2).symm
    _ ≤ (cycles.map (·.2.total_time)).sum :=
        List.single_le_sum htot _ (List.mem_map.mpr ⟨c, hc, rfl⟩)

lemma zgc_result_stw_fields (s : ZGCState) :
    (zgc_get_result s).max_stw_time_ms = listMaxQ (allSinglePauses s.gc_cycles) ∧
      (zgc_get_result s).gc_stw_time_ms =
        s.gc_cycles.foldl (fun a c => a + c.2.total_time) 0 ∧
      (zgc_get_result s).total_gc_count = s.gc_cycles.length := by
  simp only [zgc_get_result, finalize_gc_stats, base_get_result]
  split_ifs <;> exact ⟨rfl, rfl, rfl⟩

lemma shen_result_stw_fields (s : ShenState) :
    (shen_get_result s).max_stw_time_ms = listMaxQ (allSinglePauses s.gc_cycles) ∧
      (shen_get_result s).gc_stw_time_ms =
        s.gc_cycles.foldl (fun a c => a + c.2.total_time) 0 ∧
      (shen_get_result s).total_gc_count = s.gc_cycles.length := by
  simp only [shen_get_result, finalize_gc_stats, base_get_result]
  split_ifs <;> exact ⟨rfl, rfl, rfl⟩

lemma serial_run_coreOk (evs : List SerialEvent) :
    ∀ s : SerialState, (∀ e ∈ evs, e.wf) → CoreOk s.core →
      CoreOk (serial_run evs s).core := by
  induction evs with
  | nil => intro s _ h; exact h
  | cons e evs ih =>
    intro s hwf h
    rw [serial_run_cons]
    refine ih _ (fun e' he' => hwf e' (List.mem_cons_of_mem _ he')) ?_
    have hew := hwf e (List.mem_cons_self ..)
    cases e with
    | heapMaxCapacityLine v => cases v <;> exact h
    | gcFull sub hb ha cap t =>
      show CoreOk (update_gc_stats s.core sub t 0 0)
      exact coreOk_update h hew
    | gcSimple sub t =>
      show CoreOk (update_gc_stats s.core sub t 0 0)
      exact coreOk_update h hew
    | heapUsageLine kb => exact h
    | other => exact h

lemma parallel_run_coreOk (evs : List ParallelEvent) :
    ∀ s : ParallelState, (∀ e ∈ evs, e.wf) → CoreOk s.core →
      CoreOk (parallel_run evs s).core := by
  induction evs with
  | nil => intro s _ h; exact h
  | cons e evs ih =>
    intro s hwf h
    rw [parallel_run_cons]
    refine ih _ (fun e' he' => hwf e' (List.mem_cons_of_mem _ he')) ?_
    have hew := hwf e (List.mem_cons_self ..)
    cases e with
    | heapMaxCapacityLine v => cases v <;> exact h
    | gcFull sub hb ha cap t =>
      show CoreOk (update_gc_stats s.core sub t 0 0)
      exact coreOk_update h hew
    | youngGenLine a => exact h
    | oldGenLine a => exact h
    | exitHeapLine a b => exact h
    | other => exact h

lemma g1_run_coreOk (evs : List G1Event) :
    ∀ s : G1State, (∀ e ∈ evs, e.wf) → CoreOk s.core →
      CoreOk (g1_run evs s).core := by
  induction evs with
  | nil => intro s _ h; exact h
  | cons e evs ih =>
    intro s hwf h
    rw [g1_run_cons]
    refine ih _ (fun e' he' => hwf e' (List.mem_cons_of_mem _ he')) ?_
    have hew := hwf e (List.mem_cons_self ..)
    cases e with
    | heapAddressLine v => cases v <;> exact h
    | gcLine sub heap t =>
      cases heap with
      | none =>
        show CoreOk (update_gc_stats s.core sub t 0 0)
        exact coreOk_update h hew
      | some p =>
        show CoreOk (update_gc_stats s.core sub t 0 0)
        exact coreOk_update h hew
    | edenLine v => cases v <;> exact h
    | exitHeapLine v => cases v <;> exact h
    | other => exact h

lemma epsilon_run_coreOk (evs : List EpsilonEvent) :
    ∀ s : EpsilonState, (∀ e ∈ evs, e.wf) → CoreOk s.core →
      CoreOk (epsilon_run evs s).core := by
  induction evs with
  | nil => intro s _ h; exact h
  | cons e evs ih =>
    intro s hwf h
    rw [epsilon_run_cons]
    refine ih _ (fun e' he' => hwf e' (List.mem_cons_of_mem _ he')) ?_
    have hew := hwf e (List.mem_cons_self ..)
    cases e with
    | resizeableLine sv mv => cases sv <;> cases mv <;> exact h
    | heapAddressLine v => cases v <;> exact h
    | heapCommittedLine cm rv => cases cm <;> cases rv <;> exact h
    | maxCapacityLine v => cases v <;> exact h
    | heapMaxCapacityLine v => exact h
    | pauseLine p t =>
      simp only [epsilon_parse_log_line]
      split
      · show CoreOk (update_gc_stats s.core ("Non-GC Pause (" ++ p ++ ")") t 0 0)
        exact coreOk_update h hew
      · exact h
    | heapUsedLine v => cases v <;> exact h
    | exitHeapLine v => cases v <;> exact h
    | other => exact h

lemma serial_result_stw_fields (s : SerialState) :
    (serial_get_result s).max_stw_time_ms = s.core.max_stw_time ∧
      (serial_get_result s).gc_stw_time_ms = s.core.total_stw_time := by
  simp only [serial_get_result, base_get_result]
  split_ifs <;> exact ⟨rfl, rfl⟩

lemma parallel_result_stw_fields (s : ParallelState) :
    (parallel_get_result s).max_stw_time_ms = s.core.max_stw_time ∧
      (parallel_get_result s).gc_stw_time_ms = s.core.total_stw_time := by
  simp only [parallel_get_result, base_get_result]
  split_ifs <;> exact ⟨rfl, rfl⟩

lemma g1_result_stw_fields (s : G1State) :
    (g1_get_result s).max_stw_time_ms = s.core.max_stw_time ∧
      (g1_get_result s).gc_stw_time_ms = s.core.total_stw_time := by
  simp only [g1_get_result, base_get_result]
  split_ifs <;> exact ⟨rfl, rfl⟩

lemma epsilon_result_max_le (s : EpsilonState) (h : CoreOk s.core) :
    (epsilon_get_result s).max_stw_time_ms ≤ (epsilon_get_result s).gc_stw_time_ms := by
  simp only [epsilon_get_result, base_get_result]
  split_ifs <;> first | exact le_refl 0 | exact h.2

end TFW

namespace TFW

/-- Claim C8: round-trip determinism — for every collector parser family and
every finite sequence of log lines (each line classified by the family's
pure line classifier, here universally quantified), calling `reset()` after a
traversal and feeding the identical line sequence again yields via
`get_result` a `NormalizedMetrics` equal to the one obtained from the first
traversal. -/
theorem c8_round_trip_determinism :
    (∀ (classify : String → SerialEvent) (lines : List String),
      serial_get_result (serial_run (lines.map classify)
          (serial_reset (serial_run (lines.map classify) serial_init))) =
        serial_get_result (serial_run (lines.map classify) serial_init)) ∧
    (∀ (classify : String → ParallelEvent) (lines : List String),
      parallel_get_result (parallel_run (lines.map classify)
          (parallel_reset (parallel_run (lines.map classify) parallel_init))) =
        parallel_get_result (parallel_run (lines.map classify) parallel_init)) ∧
    (∀ (classify : String → G1Event) (lines : List String),
      g1_get_result (g1_run (lines.map classify)
          (g1_reset (g1_run (lines.map classify) g1_init))) =
        g1_get_result (g1_run (lines.map classify) g1_init)) ∧
    (∀ (classify : String → ZGCEvent) (lines : List String),
      zgc_get_result (zgc_run (lines.map classify)
          (zgc_reset (zgc_run (lines.map classify) zgc_init))) =
        zgc_get_result (zgc_run (lines.map classify) zgc_init)) ∧
    (∀ (classify : String → ShenEvent) (lines : List String),
      shen_get_result (shen_run (lines.map classify)
          (shen_reset (shen_run (lines.map classify) shen_init))) =
        shen_get_result (shen_run (lines.map classify) shen_init)) ∧
    (∀ (classify : String → EpsilonEvent) (lines : List String),
      epsilon_get_result (epsilon_run (lines.map classify)
          (epsilon_reset (epsilon_run (lines.map classify) epsilon_init))) =
        epsilon_get_result (epsilon_run (lines.map classify) epsilon_init)) :=
  ⟨fun classify lines => congrArg serial_get_result (serial_round_trip (lines.map classify)),
   fun classify lines => congrArg parallel_get_result (parallel_round_trip (lines.map classify)),
   fun classify lines => congrArg g1_get_result (g1_round_trip (lines.map classify)),
   fun classify lines => congrArg zgc_get_result (zgc_round_trip (lines.map classify)),
   fun classify lines => congrArg shen_get_result (shen_round_trip (lines.map classify)),
   fun classify lines => congrArg epsilon_get_result (epsilon_round_trip (lines.map classify))⟩

/-- Claim C4: for every collector parser family and every event sequence fed
to a freshly-reset parser (with the non-negative pause durations the regex
captures always produce), the resulting `NormalizedMetrics` satisfies
`max_stw_time_ms ≤ gc_stw_time_ms` whenever `total_gc_count ≥ 1`. -/
theorem c4_max_stw_le_total_stw :
    (∀ evs : List SerialEvent, (∀ e ∈ evs, e.wf) →
      1 ≤ (serial_get_result (serial_run evs serial_init)).total_gc_count →
      (serial_get_result (serial_run evs serial_init)).max_stw_time_ms ≤
        (serial_get_result (serial_run evs serial_init)).gc_stw_time_ms) ∧
    (∀ evs : List ParallelEvent, (∀ e ∈ evs, e.wf) →
      1 ≤ (parallel_get_result (parallel_run evs parallel_init)).total_gc_count →
      (parallel_get_result (parallel_run evs parallel_init)).max_stw_time_ms ≤
        (parallel_get_result (parallel_run evs parallel_init)).gc_stw_time_ms) ∧
    (∀ evs : List G1Event, (∀ e ∈ evs, e.wf) →
      1 ≤ (g1_get_result (g1_run evs g1_init)).total_gc_count →
      (g1_get_result (g1_run evs g1_init)).max_stw_time_ms ≤
        (g1_get_result (g1_run evs g1_init)).gc_stw_time_ms) ∧
    (∀ evs : List ZGCEvent, (∀ e ∈ evs, e.wf) →
      1 ≤ (zgc_get_result (zgc_run evs zgc_init)).total_gc_count →
      (zgc_get_result (zgc_run evs zgc_init)).max_stw_time_ms ≤
        (zgc_get_result (zgc_run evs zgc_init)).gc_stw_time_ms) ∧
    (∀ evs : List ShenEvent, (∀ e ∈ evs, e.wf) →
      1 ≤ (shen_get_result (shen_run evs shen_init)).total_gc_count →
      (shen_get_result (shen_run evs shen_init)).max_stw_time_ms ≤
        (shen_get_result (shen_run evs shen_init)).gc_stw_time_ms) ∧
    (∀ evs : List EpsilonEvent, (∀ e ∈ evs, e.wf) →
      1 ≤ (epsilon_get_result (epsilon_run evs epsilon_init)).total_gc_count →
      (epsilon_get_result (epsilon_run evs epsilon_init)).max_stw_time_ms ≤
        (epsilon_get_result (epsilon_run evs epsilon_init)).gc_stw_time_ms) := by
  refine ⟨?_, ?_, ?_, ?_, ?_, ?_⟩
  · intro evs hwf _
    obtain ⟨h1, h2⟩ := serial_result_stw_fields (serial_run evs serial_init)
    rw [h1, h2]
    exact (serial_run_coreOk evs serial_init hwf coreOk_init).2
  · intro evs hwf _
    obtain ⟨h1, h2⟩ := parallel_result_stw_fields (parallel_run evs parallel_init)
    rw [h1, h2]
    exact (parallel_run_coreOk evs parallel_init hwf coreOk_init).2
  · intro evs hwf _
    obtain ⟨h1, h2⟩ := g1_result_stw_fields (g1_run evs g1_init)
    rw [h1, h2]
    exact (g1_run_coreOk evs g1_init hwf coreOk_init).2
  · intro evs hwf _
    obtain ⟨h1, h2, _⟩ := zgc_result_stw_fields (zgc_run evs zgc_init)
    rw [h1, h2]
    exact finalize_max_le_total (zgc_run_cyclesOk evs zgc_init hwf cyclesOk_nil)
  · intro evs hwf _
    obtain ⟨h1, h2, _⟩ := shen_result_stw_fields (shen_run evs shen_init)
    rw [h1, h2]
    exact finalize_max_le_total (shen_run_cyclesOk evs shen_init hwf cyclesOk_nil)
  · intro evs hwf _
    exact epsilon_result_max_le _ (epsilon_run_coreOk evs epsilon_init hwf coreOk_init)

/-- Witness for C4: the invariant instantiated per family at a one-event log
with a 1 ms pause, discharging the well-formedness and `total_gc_count ≥ 1`
hypotheses at those concrete inputs. -/
theorem c4_max_stw_le_total_stw_witness :
    ((serial_get_result (serial_run [SerialEvent.gcSimple "Young GC" 1] serial_init)).max_stw_time_ms ≤
      (serial_get_result (serial_run [SerialEvent.gcSimple "Young GC" 1] serial_init)).gc_stw_time_ms) ∧
    ((parallel_get_result (parallel_run [ParallelEvent.gcFull "Young GC" 64 0 245 1] parallel_init)).max_stw_time_ms ≤
      (parallel_get_result (parallel_run [ParallelEvent.gcFull "Young GC" 64 0 245 1] parallel_init)).gc_stw_time_ms) ∧
    ((g1_get_result (g1_run [G1Event.gcLine "Full GC" none 1] g1_init)).max_stw_time_ms ≤
      (g1_get_result (g1_run [G1Event.gcLine "Full GC" none 1] g1_init)).gc_stw_time_ms) ∧
    ((zgc_get_result (zgc_run [ZGCEvent.pauseLine "0" "Pause Mark Start" 1] zgc_init)).max_stw_time_ms ≤
      (zgc_get_result (zgc_run [ZGCEvent.pauseLine "0" "Pause Mark Start" 1] zgc_init)).gc_stw_time_ms) ∧
    ((shen_get_result (shen_run [ShenEvent.pauseLine "0" "Final Roots" 1] shen_init)).max_stw_time_ms ≤
      (shen_get_result (shen_run [ShenEvent.pauseLine "0" "Final Roots" 1] shen_init)).gc_stw_time_ms) ∧
    ((epsilon_get_result (epsilon_run [EpsilonEvent.pauseLine "pause" 1] epsilon_init)).max_stw_time_ms ≤
      (epsilon_get_result (epsilon_run [EpsilonEvent.pauseLine "pause" 1] epsilon_init)).gc_stw_time_ms) :=
  ⟨c4_max_stw_le_total_stw.1 _ (by simp [SerialEvent.wf]) (by decide),
   c4_max_stw_le_total_stw.2.1 _ (by simp [ParallelEvent.wf]) (by decide),
   c4_max_stw_le_total_stw.2.2.1 _ (by simp [G1Event.wf]) (by decide),
   c4_max_stw_le_total_stw.2.2.2.1 _ (by simp [ZGCEvent.wf]) (by decide),
   c4_max_stw_le_total_stw.2.2.2.2.1 _ (by simp [ShenEvent.wf]) (by decide),
   c4_max_stw_le_total_stw.2.2.2.2.2 _ (by simp [EpsilonEvent.wf]) (by norm_num [epsilon_run, epsilon_parse_log_line, epsilon_get_result, base_get_result, update_gc_stats, epsilon_init, initCore])⟩

/-- Claim C9: one call to the shared accumulator update
`update_gc_stats(subtype, stw_time, heap_before, heap_after)` with
`stw_time ≥ 0` (heap sizes are naturals, hence ≥ 0) increases
`total_gc_count` by exactly 1, increases the named subtype's breakdown count
by exactly 1, and decreases none of `gc_stw_time_ms` (`total_stw_time`),
`max_stw_time_ms` (`max_stw_time`) or `max_heap_mb` (`max_heap_usage`). -/
theorem c9_update_gc_stats_monotone :
    ∀ (s : CoreState) (gc_subtype : String) (stw_time : ℚ) (heap_before heap_after : Nat),
      0 ≤ stw_time →
      (update_gc_stats s gc_subtype stw_time heap_before heap_after).gc_count =
        s.gc_count + 1 ∧
      bdCount gc_subtype (update_gc_stats s gc_subtype stw_time heap_before heap_after) =
        bdCount gc_subtype s + 1 ∧
      s.total_stw_time ≤
        (update_gc_stats s gc_subtype stw_time heap_before heap_after).total_stw_time ∧
      s.max_stw_time ≤
        (update_gc_stats s gc_subtype stw_time heap_before heap_after).max_stw_time ∧
      s.max_heap_usage ≤
        (update_gc_stats s gc_subtype stw_time heap_before heap_after).max_heap_usage := by
  intro s sub t hb ha ht
  refine ⟨rfl, ?_, le_add_of_nonneg_right ht, le_max_left _ _, le_max_left _ _⟩
  show ((alookup sub (upsert sub ⟨0, 0⟩
      (fun e => ⟨e.count + 1, e.stw_time_ms + t⟩) s.gc_type_breakdown)).map (·.count)).getD 0 =
    bdCount sub s + 1
  rw [alookup_upsert_self]
  unfold bdCount
  cases alookup sub s.gc_type_breakdown <;> simp

/-- Witness for C9: the update applied to the empty accumulator with a 1 ms
young-collection pause. -/
theorem c9_update_gc_stats_monotone_witness :
    (update_gc_stats initCore "Young GC" 1 24 0).gc_count = initCore.gc_count + 1 ∧
    bdCount "Young GC" (update_gc_stats initCore "Young GC" 1 24 0) =
      bdCount "Young GC" initCore + 1 ∧
    initCore.total_stw_time ≤ (update_gc_stats initCore "Young GC" 1 24 0).total_stw_time ∧
    initCore.max_stw_time ≤ (update_gc_stats initCore "Young GC" 1 24 0).max_stw_time ∧
    initCore.max_heap_usage ≤ (update_gc_stats initCore "Young GC" 1 24 0).max_heap_usage :=
  c9_update_gc_stats_monotone initCore "Young GC" 1 24 0 zero_le_one

/-- Claim C6: if one registered oracle raises, the engine converts that
failure into a single `oracle_execution_error` record naming the failing
oracle, and every other registered oracle (before and after it in the
registry) is still invoked on the same file with its emitted anomalies
preserved, in order. -/
theorem c6_oracle_failure_isolated :
    ∀ (α : Type) (pre post : List (Oracle α)) (o : Oracle α) (log_data : LogData)
      (file_path err : String),
      o.fn log_data file_path = .error err →
      analyze_json_file (pre ++ o :: post) log_data file_path =
        analyze_json_file pre log_data file_path ++
          EngineRecord.execError file_path o.name err ::
            analyze_json_file post log_data file_path := by
  intro α pre post o log fp err h
  simp [analyze_json_file, h]

/-- Witness for C6: a two-oracle registry where the second oracle raises —
the first oracle's anomaly is preserved and the failure becomes one
`oracle_execution_error` record naming `oracle_stw_anomaly`. -/
theorem c6_oracle_failure_isolated_witness :
    analyze_json_file
        [⟨"oracle_test_failure", fun _ _ => Except.ok (some 7)⟩,
         ⟨"oracle_stw_anomaly", fun _ _ => Except.error "boom"⟩]
        ⟨none⟩ "res.json" =
      [EngineRecord.emitted 7,
       EngineRecord.execError "res.json" "oracle_stw_anomaly" "boom"] := by
  have h := c6_oracle_failure_isolated Nat
    [⟨"oracle_test_failure", fun _ _ => Except.ok (some 7)⟩] []
    ⟨"oracle_stw_anomaly", fun _ _ => Except.error "boom"⟩ ⟨none⟩ "res.json" "boom" rfl
  exact h.trans (by rfl)

end TFW

namespace TFW

/-! ## Digit-freeness lemmas for the heap-unit normalizer (claims C7, C10) -/

lemma takeWhile_isDigit_nil {l : List Char} (h : ∀ c ∈ l, c.isDigit = false) :
    l.takeWhile Char.isDigit = [] := by
  cases l with
  | nil => rfl
  | cons c cs => simp [List.takeWhile_cons, h c (List.mem_cons_self ..)]

lemma digitsP_none {l : List Char} (h : ∀ c ∈ l, c.isDigit = false) :
    digitsP l = none := by
  simp [digitsP, takeWhile_isDigit_nil h]

lemma numUnitAt_none {u : List Char} {l : List Char} (h : ∀ c ∈ l, c.isDigit = false) :
    numUnitAt u l = none := by
  simp [numUnitAt, takeWhile_isDigit_nil h]

lemma searchPos_none {β : Type} {f : List Char → Option β}
    (hf : ∀ t : List Char, (∀ c ∈ t, c.isDigit = false) → f t = none) :
    ∀ l : List Char, (∀ c ∈ l, c.isDigit = false) → searchPos f l = none := by
  intro l
  induction l with
  | nil => intro h; exact hf [] h
  | cons c rest ih =>
    intro h
    simp only [searchPos, hf _ h]
    exact ih (fun c' hc' => h c' (List.mem_cons_of_mem _ hc'))

lemma processed_no_digit {s : String} (h : ∀ c ∈ s.data, c.isDigit = false) :
    ∀ c ∈ (pyUpper (pyStrip s)).data, c.isDigit = false := by
  intro c hc
  simp only [pyUpper, pyStrip] at hc
  obtain ⟨c', hc', rfl⟩ := List.mem_map.mp hc
  rw [isDigit_toUpper]
  apply h
  rw [List.mem_reverse] at hc'
  have h1 : c' ∈ (s.data.dropWhile isWs).reverse :=
    (List.dropWhile_sublist _).mem hc'
  rw [List.mem_reverse] at h1
  exact (List.dropWhile_sublist _).mem h1

lemma searchNumUnit_none {u : String} {s : String}
    (h : ∀ c ∈ (pyUpper (pyStrip s)).data, c.isDigit = false) :
    searchNumUnit u (pyUpper (pyStrip s)) = none :=
  searchPos_none (fun _ ht => numUnitAt_none ht) _ h

lemma searchBareNum_none {s : String}
    (h : ∀ c ∈ (pyUpper (pyStrip s)).data, c.isDigit = false) :
    searchBareNum (pyUpper (pyStrip s)) = none :=
  searchPos_none (fun t ht => by simp [digitsP_none ht]) _ h

/-- Claim C7: the heap unit normalizer returns 4096 for `"4G"`, 1 for
`"512K"` (K/KB floored but clamped to at least 1 MB), 256 for `"256M"`, and
0 for any input containing no parseable number (no digit); it tolerates
surrounding whitespace and lower-case units. -/
theorem c7_extract_heap_size_units :
    extract_heap_size "4G" = 4096 ∧
    extract_heap_size "512K" = 1 ∧
    extract_heap_size "256M" = 256 ∧
    extract_heap_size " 4g " = 4096 ∧
    extract_heap_size " 256m " = 256 ∧
    (∀ s : String, (∀ c ∈ s.data, c.isDigit = false) → extract_heap_size s = 0) := by
  refine ⟨by decide, by decide, by decide, by decide, by decide, ?_⟩
  intro s h
  by_cases hs : s = ""
  · subst hs
    decide
  · have hp := processed_no_digit h
    simp only [extract_heap_size, if_neg hs, searchNumUnit_none hp, searchBareNum_none hp]

/-- Witness for C7's universal clause: a digit-free input evaluates to 0. -/
theorem c7_extract_heap_size_units_witness : extract_heap_size "no size here" = 0 :=
  c7_extract_heap_size_units.2.2.2.2.2 "no size here" (by decide)

/-- Claim C10: zero-valued kilobyte inputs are rounded up, not dropped —
`"0K"` and `"0KB"` yield 1, and every input on which the normalizer reaches
its KB/K branch (the GB/G/MB/M patterns fail and KB or K matches) yields a
result ≥ 1. -/
theorem c10_kb_rounds_up_to_one :
    extract_heap_size "0K" = 1 ∧
    extract_heap_size "0KB" = 1 ∧
    (∀ s : String,
      searchNumUnit "GB" (pyUpper (pyStrip s)) = none →
      searchNumUnit "G" (pyUpper (pyStrip s)) = none →
      searchNumUnit "MB" (pyUpper (pyStrip s)) = none →
      searchNumUnit "M" (pyUpper (pyStrip s)) = none →
      ((searchNumUnit "KB" (pyUpper (pyStrip s))).isSome ∨
        (searchNumUnit "K" (pyUpper (pyStrip s))).isSome) →
      1 ≤ extract_heap_size s) := by
  refine ⟨by decide, by decide, ?_⟩
  intro s h1 h2 h3 h4 h5
  by_cases hs : s = ""
  · subst hs
    revert h5
    decide
  · simp only [extract_heap_size, if_neg hs, h1, h2, h3, h4]
    cases hKB : searchNumUnit "KB" (pyUpper (pyStrip s)) with
    | some v => exact le_max_left _ _
    | none =>
      cases hK : searchNumUnit "K" (pyUpper (pyStrip s)) with
      | some w => exact le_max_left _ _
      | none => simp [hKB, hK] at h5

/-- Witness for C10's universal clause at the input `"0K"`. -/
theorem c10_kb_rounds_up_to_one_witness : 1 ≤ extract_heap_size "0K" :=
  c10_kb_rounds_up_to_one.2.2 "0K" (by decide) (by decide) (by decide) (by decide)
    (by decide)

end TFW

namespace TFW

/-! ## Concrete pauseless-concurrent scenario (claims C1, C2)

The two-line log of the spec's cycle-aggregation scenario:
`GC(5) Pause Mark Start 0.010ms` then `GC(5) Pause Mark End 0.020ms`. -/

lemma zgc_classify_mark_start :
    zgc_classify "GC(5) Pause Mark Start 0.010ms" =
      ZGCEvent.pauseLine "5" "Pause Mark Start" (parseRat "0.010".data) := by
  have hstrip : pyStrip "GC(5) Pause Mark Start 0.010ms" =
      "GC(5) Pause Mark Start 0.010ms" := by decide
  have hmc : containsSub "Max Capacity:" "GC(5) Pause Mark Start 0.010ms" = false := by
    decide
  have hps : pauseSearch "GC(5) Pause Mark Start 0.010ms" =
      some ("5", "Mark Start", "0.010") := by decide
  have hsub : zgc_subtype "Mark Start" = "Pause Mark Start" := by decide
  simp [zgc_classify, hstrip, hmc, hps, hsub]

lemma zgc_classify_mark_end :
    zgc_classify "GC(5) Pause Mark End 0.020ms" =
      ZGCEvent.pauseLine "5" "Pause Mark End" (parseRat "0.020".data) := by
  have hstrip : pyStrip "GC(5) Pause Mark End 0.020ms" =
      "GC(5) Pause Mark End 0.020ms" := by decide
  have hmc : containsSub "Max Capacity:" "GC(5) Pause Mark End 0.020ms" = false := by
    decide
  have hps : pauseSearch "GC(5) Pause Mark End 0.020ms" =
      some ("5", "Mark End", "0.020") := by decide
  have hsub : zgc_subtype "Mark End" = "Pause Mark End" := by decide
  simp [zgc_classify, hstrip, hmc, hps, hsub]

lemma shen_classify_mark_start :
    shen_classify "GC(5) Pause Mark Start 0.010ms" =
      ShenEvent.pauseLine "5" "Mark Start" (parseRat "0.010".data) := by
  have hstrip : pyStrip "GC(5) Pause Mark Start 0.010ms" =
      "GC(5) Pause Mark Start 0.010ms" := by decide
  have hmc : containsSub "Max Capacity:" "GC(5) Pause Mark Start 0.010ms" = false := by
    decide
  have hps : pauseSearch "GC(5) Pause Mark Start 0.010ms" =
      some ("5", "Mark Start", "0.010") := by decide
  have hsub : shen_subtype "Mark Start" = "Mark Start" := by decide
  simp [shen_classify, hstrip, hmc, hps, hsub]

lemma shen_classify_mark_end :
    shen_classify "GC(5) Pause Mark End 0.020ms" =
      ShenEvent.pauseLine "5" "Mark End" (parseRat "0.020".data) := by
  have hstrip : pyStrip "GC(5) Pause Mark End 0.020ms" =
      "GC(5) Pause Mark End 0.020ms" := by decide
  have hmc : containsSub "Max Capacity:" "GC(5) Pause Mark End 0.020ms" = false := by
    decide
  have hps : pauseSearch "GC(5) Pause Mark End 0.020ms" =
      some ("5", "Mark End", "0.020") := by decide
  have hsub : shen_subtype "Mark End" = "Mark End" := by decide
  simp [shen_classify, hstrip, hmc, hps, hsub]

lemma parseRat_0010_list : parseRat ['0', '.', '0', '1', '0'] = 1 / 100 := by
  have h : parseRat ['0', '.', '0', '1', '0'] =
      (natOfDigits ['0'] : ℚ) + (natOfDigits ['0', '1', '0'] : ℚ) / (10 : ℚ) ^ (3 : Nat) :=
    rfl
  rw [h, show natOfDigits ['0'] = 0 from by decide,
    show natOfDigits ['0', '1', '0'] = 10 from by decide]
  norm_num

lemma parseRat_0020_list : parseRat ['0', '.', '0', '2', '0'] = 1 / 50 := by
  have h : parseRat ['0', '.', '0', '2', '0'] =
      (natOfDigits ['0'] : ℚ) + (natOfDigits ['0', '2', '0'] : ℚ) / (10 : ℚ) ^ (3 : Nat) :=
    rfl
  rw [h, show natOfDigits ['0'] = 0 from by decide,
    show natOfDigits ['0', '2', '0'] = 20 from by decide]
  norm_num

lemma parseRat_0010 : parseRat "0.010".data = 1 / 100 := parseRat_0010_list

lemma parseRat_0020 : parseRat "0.020".data = 1 / 50 := parseRat_0020_list

lemma zgc_example_result :
    zgc_get_result (zgc_run
        (["GC(5) Pause Mark Start 0.010ms", "GC(5) Pause Mark End 0.020ms"].map
          zgc_classify) zgc_init) =
      ⟨1, 3 / 100, 1 / 50, 0,
        [("Pause Mark Start", ⟨1, 1 / 100⟩), ("Pause Mark End", ⟨1, 1 / 50⟩)]⟩ := by
  simp only [List.map_cons, List.map_nil, zgc_classify_mark_start, zgc_classify_mark_end,
    parseRat_0010, parseRat_0020]
  simp [zgc_run, zgc_parse_log_line, recordPause, upsert, zgc_init, initCore,
        zgc_get_result, finalize_gc_stats, base_get_result, allSinglePauses,
        buildBreakdown, listMaxQ]
  norm_num [max_def, parseRat_0010_list, parseRat_0020_list]

lemma shen_example_result :
    shen_get_result (shen_run
        (["GC(5) Pause Mark Start 0.010ms", "GC(5) Pause Mark End 0.020ms"].map
          shen_classify) shen_init) =
      ⟨1, 3 / 100, 1 / 50, 0,
        [("Mark Start", ⟨1, 1 / 100⟩), ("Mark End", ⟨1, 1 / 50⟩)]⟩ := by
  simp only [List.map_cons, List.map_nil, shen_classify_mark_start, shen_classify_mark_end,
    parseRat_0010, parseRat_0020]
  simp [shen_run, shen_parse_log_line, recordPause, upsert, shen_init, initCore,
        shen_get_result, finalize_gc_stats, base_get_result, allSinglePauses,
        buildBreakdown, listMaxQ]
  norm_num [max_def, parseRat_0010_list, parseRat_0020_list]

lemma zgc_example_cycles :
    (zgc_run (["GC(5) Pause Mark Start 0.010ms", "GC(5) Pause Mark End 0.020ms"].map
        zgc_classify) zgc_init).gc_cycles =
      [("5", ⟨[("Pause Mark Start", 1 / 100), ("Pause Mark End", 1 / 50)], 3 / 100⟩)] := by
  simp only [List.map_cons, List.map_nil, zgc_classify_mark_start, zgc_classify_mark_end,
    parseRat_0010, parseRat_0020]
  simp [zgc_run, zgc_parse_log_line, recordPause, upsert, zgc_init, initCore]
  norm_num [parseRat_0010_list, parseRat_0020_list]

lemma allSinglePauses_eq_allSubPhaseTotals (cycles : List (String × CycleInfo)) :
    allSinglePauses cycles = allSubPhaseTotals cycles := by
  simp [allSinglePauses, allSubPhaseTotals, List.map_flatMap]

end TFW

namespace TFW

/-- Counterexample to claim C1 as stated: for the Shenandoah parser the two
breakdown entries of the cycle-aggregation scenario are labelled
`"Mark Start"` and `"Mark End"` — its sub-type classifier has no case for
these pause types and passes them through verbatim — so the breakdown
contains no `"Pause Mark Start"` (or `"Pause Mark End"`) entry, contrary to
the claim's labels. -/
theorem c1_shen_labels_counterexample :
    alookup "Pause Mark Start"
        (shen_get_result (shen_run
          (["GC(5) Pause Mark Start 0.010ms", "GC(5) Pause Mark End 0.020ms"].map
            shen_classify) shen_init)).gc_type_breakdown = none ∧
    ((shen_get_result (shen_run
          (["GC(5) Pause Mark Start 0.010ms", "GC(5) Pause Mark End 0.020ms"].map
            shen_classify) shen_init)).gc_type_breakdown.map Prod.fst) =
      ["Mark Start", "Mark End"] := by
  rw [shen_example_result]
  exact ⟨rfl, rfl⟩

/-- Claim C1, amended: feeding `GC(5) Pause Mark Start 0.010ms` then
`GC(5) Pause Mark End 0.020ms` into a freshly-reset pauseless-concurrent
parser yields `total_gc_count = 1` (one logical event for cycle 5, not one
per sub-phase), `gc_stw_time_ms = 0.030`, and a breakdown of exactly two
sub-phase entries with count 1 each — labelled `"Pause Mark Start"` /
`"Pause Mark End"` by the ZGC parser but `"Mark Start"` / `"Mark End"` by
the Shenandoah parser. -/
theorem c1_cycle_aggregation_amended :
    zgc_get_result (zgc_run
        (["GC(5) Pause Mark Start 0.010ms", "GC(5) Pause Mark End 0.020ms"].map
          zgc_classify) zgc_init) =
      ⟨1, 3 / 100, 1 / 50, 0,
        [("Pause Mark Start", ⟨1, 1 / 100⟩), ("Pause Mark End", ⟨1, 1 / 50⟩)]⟩ ∧
    shen_get_result (shen_run
        (["GC(5) Pause Mark Start 0.010ms", "GC(5) Pause Mark End 0.020ms"].map
          shen_classify) shen_init) =
      ⟨1, 3 / 100, 1 / 50, 0,
        [("Mark Start", ⟨1, 1 / 100⟩), ("Mark End", ⟨1, 1 / 50⟩)]⟩ :=
  ⟨zgc_example_result, shen_example_result⟩

/-- Counterexample to claim C2 as stated: on the one-cycle two-sub-phase
log, `max_stw_time_ms` is 0.020 (the largest per-sub-phase aggregate: the
finalization pass overwrites the per-cycle-total fold, zgc_parser.py line
141), while the maximum over per-cycle totals the claim demands is 0.030. -/
theorem c2_max_stw_counterexample :
    (zgc_get_result (zgc_run
        (["GC(5) Pause Mark Start 0.010ms", "GC(5) Pause Mark End 0.020ms"].map
          zgc_classify) zgc_init)).max_stw_time_ms = 1 / 50 ∧
    perCycleTotalMax (zgc_run
        (["GC(5) Pause Mark Start 0.010ms", "GC(5) Pause Mark End 0.020ms"].map
          zgc_classify) zgc_init).gc_cycles = 3 / 100 ∧
    (1 : ℚ) / 50 ≠ 3 / 100 := by
  refine ⟨?_, ?_, by norm_num⟩
  · rw [zgc_example_result]
  · rw [zgc_example_cycles]
    rfl

/-- Claim C2, amended: for every log fed to a pauseless-concurrent parser,
`max_stw_time_ms` is the maximum over the per-(cycle, sub-phase) aggregated
pause durations (0.0 when there are none) — not over per-cycle totals; in
particular, for one cycle with sub-phases of 0.010 ms and 0.020 ms it is
0.020. -/
theorem c2_max_stw_amended :
    (∀ evs : List ZGCEvent,
      (zgc_get_result (zgc_run evs zgc_init)).max_stw_time_ms =
        listMaxQ (allSubPhaseTotals (zgc_run evs zgc_init).gc_cycles)) ∧
    (∀ evs : List ShenEvent,
      (shen_get_result (shen_run evs shen_init)).max_stw_time_ms =
        listMaxQ (allSubPhaseTotals (shen_run evs shen_init).gc_cycles)) ∧
    (zgc_get_result (zgc_run
        (["GC(5) Pause Mark Start 0.010ms", "GC(5) Pause Mark End 0.020ms"].map
          zgc_classify) zgc_init)).max_stw_time_ms = 1 / 50 ∧
    (shen_get_result (shen_run
        (["GC(5) Pause Mark Start 0.010ms", "GC(5) Pause Mark End 0.020ms"].map
          shen_classify) shen_init)).max_stw_time_ms = 1 / 50 := by
  refine ⟨?_, ?_, ?_, ?_⟩
  · intro evs
    rw [(zgc_result_stw_fields (zgc_run evs zgc_init)).1,
      allSinglePauses_eq_allSubPhaseTotals]
  · intro evs
    rw [(shen_result_stw_fields (shen_run evs shen_init)).1,
      allSinglePauses_eq_allSubPhaseTotals]
  · rw [zgc_example_result]
  · rw [shen_example_result]

/-- Claim C3 (supporting theorem for the code bug): for a log path whose
filename contains none of the six collector-family tokens, the stub
`GCLogAnalyzer.parse_gc_log` silently returns the hard-coded default record
(`total_gc_count = 1`, `gc_stw_time_ms = 15.0`, `max_heap_mb = 256`,
an `"UnknownGC"` breakdown entry) instead of failing with an
unrecognized-format error as the spec requires. -/
theorem c3_stub_returns_default_record :
    parse_gc_log "app.log" = ⟨1, 15, 256, [("UnknownGC", ⟨1, 15⟩)]⟩ ∧
    containsSub "serialgc" (pyLower (baseName "app.log")) = false ∧
    containsSub "parallelgc" (pyLower (baseName "app.log")) = false ∧
    containsSub "g1gc" (pyLower (baseName "app.log")) = false ∧
    containsSub "zgc" (pyLower (baseName "app.log")) = false ∧
    containsSub "shenandoahgc" (pyLower (baseName "app.log")) = false ∧
    containsSub "epsilongc" (pyLower (baseName "app.log")) = false := by
  refine ⟨rfl, ?_, ?_, ?_, ?_, ?_, ?_⟩ <;> decide

end TFW

namespace TFW

/-! ## The STW-threshold sample-size gate (claim C5) -/

lemma collectGcData_count10 :
    collectGcData
        [⟨some "17", some ["-XX:+UseZGC"], some ⟨some 10, some 1000⟩, some "t0"⟩] =
      [⟨"17", "ZGC", 1000, 10, ["-XX:+UseZGC"], "t0"⟩] := by decide

lemma thresholdViolations_count10 :
    thresholdViolations [⟨"17", "ZGC", 1000, 10, ["-XX:+UseZGC"], "t0"⟩] =
      [⟨"17", "ZGC", ["-XX:+UseZGC"], 1000, 2, 998, 10, "t0"⟩] := by
  rw [thresholdViolations, List.filterMap_cons]
  norm_num [STW_THRESHOLDS]

lemma jdkComparisonAnomalies_count10 :
    jdkComparisonAnomalies [⟨"17", "ZGC", 1000, 10, ["-XX:+UseZGC"], "t0"⟩] = [] := by
  decide

lemma crossVersionAnomalies_count10 :
    crossVersionAnomalies [⟨"17", "ZGC", 1000, 10, ["-XX:+UseZGC"], "t0"⟩] = [] := by
  decide

/-- Counterexample to claim C5 as stated: a run whose `gc_analysis` has
`total_gc_count = 10` — i.e. `≤ 10` — does contribute a threshold-violation
entry, because the collection loop skips only runs with `total_gc_count < 10`
(stw_anomaly.py line 61), not `≤ 10`. -/
theorem c5_sample_gate_counterexample :
    oracle_stw_anomaly
        ⟨some [⟨some "17", some ["-XX:+UseZGC"], some ⟨some 10, some 1000⟩, some "t0"⟩]⟩
        "res.json" =
      some ⟨"stw_anomaly", "res.json",
        [StwEntry.threshold ⟨"17", "ZGC", ["-XX:+UseZGC"], 1000, 2, 998, 10, "t0"⟩],
        1, 1, 0, 0⟩ ∧
    (10 : Int) ≤ 10 := by
  refine ⟨?_, le_refl 10⟩
  simp [oracle_stw_anomaly, collectGcData_count10, thresholdViolations_count10,
    jdkComparisonAnomalies_count10, crossVersionAnomalies_count10,
    StwEntry.hasThresholdKey, StwEntry.isJdkComparison, StwEntry.isCrossVersion]

/-- Claim C5, amended: the absolute STW threshold (and every other STW
anomaly rule) is only evaluated for runs with `total_gc_count ≥ 10`: every
run the oracle collects into `gc_data` — the sole source of all three
anomaly sections — has `total_gc_count ≥ 10`, and in particular every
threshold-violation entry records a count `≥ 10`. -/
theorem c5_sample_gate_amended :
    ∀ test_results : List RunRes,
      (∀ d ∈ collectGcData test_results, 10 ≤ d.total_gc_count) ∧
      (∀ a ∈ thresholdViolations (collectGcData test_results), 10 ≤ a.total_gc_count) := by
  intro rs
  have hgd : ∀ d ∈ collectGcData rs, 10 ≤ d.total_gc_count := by
    intro d hd
    rw [collectGcData, List.mem_filterMap] at hd
    obtain ⟨r, hr, hf⟩ := hd
    cases hga : r.gc_analysis with
    | none => rw [hga] at hf; exact absurd hf (by simp)
    | some ga =>
      rw [hga] at hf
      dsimp only [] at hf
      cases hcnt : ga.total_gc_count with
      | none =>
        rw [hcnt] at hf
        dsimp only [] at hf
        exact absurd hf (by simp)
      | some cnt =>
        rw [hcnt] at hf
        dsimp only [] at hf
        by_cases hlt : cnt < 10
        · rw [if_pos hlt] at hf
          exact absurd hf (by simp)
        · rw [if_neg hlt] at hf
          cases hmx : ga.max_stw_time_ms with
          | none =>
            rw [hmx] at hf
            dsimp only [] at hf
            exact absurd hf (by simp)
          | some mx =>
            rw [hmx] at hf
            dsimp only [] at hf
            injection hf with h
            subst h
            show 10 ≤ cnt
            omega
  refine ⟨hgd, ?_⟩
  intro a ha
  rw [thresholdViolations, List.mem_filterMap] at ha
  obtain ⟨d, hd, hf⟩ := ha
  by_cases hth : STW_THRESHOLDS d.gc_type < d.max_stw_time_ms
  · rw [if_pos hth] at hf
    injection hf with h
    subst h
    exact hgd d hd
  · rw [if_neg hth] at hf
    exact absurd hf (by simp)

/-- Witness for C5 (amended): the collected entry of a concrete
single-run result set has `total_gc_count ≥ 10`. -/
theorem c5_sample_gate_amended_witness :
    (10 : Int) ≤ (⟨"17", "ZGC", 1000, 10, ["-XX:+UseZGC"], "t0"⟩ : GcDataEntry).total_gc_count :=
  (c5_sample_gate_amended
      [⟨some "17", some ["-XX:+UseZGC"], some ⟨some 10, some 1000⟩, some "t0"⟩]).1
    ⟨"17", "ZGC", 1000, 10, ["-XX:+UseZGC"], "t0"⟩ (by simp [collectGcData_count10])

end TFW
